import Mathlib

set_option maxHeartbeats 1000000

/-!
Shallow embedding of `packages/cli/scripts/util/Watcher.js` (the live rebuild
orchestrator).  The Lambda-code portion of the watcher is modelled as a
deterministic state machine: every JS event handler becomes a pure function on
`Watcher.WatcherState`, promises become waiter identifiers with an explicit
settlement registry, child processes and esbuild handles become numeric
handles, and the single-threaded cooperative event loop becomes an inductive
`Step`/`Reachable` relation over the handler functions.  External collaborators
(esbuild, the go compiler, chokidar, the CDK state machine) are out of the
modelled core, exactly as the spec declares them out of scope; their outcomes
enter the model as event parameters.
-/

deriving instance DecidableEq for Except

namespace Watcher

/-- Runtime kinds.  The source classifies runtimes with `isGoRuntime`,
`isNodeRuntime` and `isPythonRuntime` imported from `cdkHelpers` (a file that
is not part of the repository snapshot).  Modelled from the spec: `runtime` is
one of node-like, go-like, python-like. -/
inductive Runtime
  | node
  | go
  | python
deriving DecidableEq

def isGoRuntime (r : Runtime) : Bool := r matches Runtime.go

def isNodeRuntime (r : Runtime) : Bool := r matches Runtime.node

def isPythonRuntime (r : Runtime) : Bool := r matches Runtime.python

/-- `REBUILD_PRIORITY.OFF`: the entry point does not need to rebuild.
The source stores plain numbers and relies on JS truthiness (`needsReBuild`
is falsy exactly when it is `0`). -/
def REBUILD_PRIORITY.OFF : Nat := 0

/-- `REBUILD_PRIORITY.LOW`: the entry point needs to rebuild because a file
changed. -/
def REBUILD_PRIORITY.LOW : Nat := 1

/-- `REBUILD_PRIORITY.HIGH`: the entry point needs to rebuild because a
request is waiting. -/
def REBUILD_PRIORITY.HIGH : Nat := 2

/-- Settlement state of one promise pushed onto `pendingRequestCallbacks` by
`getTranspiledHandler`.  JS promises are one-shot: resolving or rejecting an
already settled promise is a no-op, which the transition functions respect. -/
inductive WaiterStatus
  | pending
  | resolved
  | rejected (msg : String)
deriving DecidableEq

/-- The `outEntryPoint` descriptor produced by a successful build
(fields `entry`, `handler`, `srcPath`, `origHandlerFullPosixPath` in the
source; the middle two are absent for go builds). -/
structure OutEntryPoint where
  entry : String
  outHandler : Option String
  outSrcPath : Option String
  origHandlerFullPosixPath : String
deriving DecidableEq

/-- One record of `state.entryPointsData` (template object
`entryPointDataTemplateObject` in the source).  `buildPromise` holds the
numeric handle of the in-flight rebuild, `pendingRequestCallbacks` the FIFO of
waiter identifiers.  The opaque `esbuilder` handle is only disposed in
`stop()` and is not modelled.  `inputFiles` is initialised to `null` in the
source but is set by `onBuildSucceeded` for every entry point during `start`
before any rebuild can run, so it is modelled as a plain list. -/
structure EntryPointData where
  srcPath : String
  handler : String
  runtime : Runtime
  hasError : Bool := false
  buildPromise : Option Nat := none
  outEntryPoint : Option OutEntryPoint := none
  needsReBuild : Nat := REBUILD_PRIORITY.OFF
  pendingRequestCallbacks : List Nat := []
  tsconfig : Option String := none
  inputFiles : List String := []
deriving DecidableEq

/-- One record of `state.srcPathsData` (template object
`srcPathDataTemplateObject`).  `lintProcess` and `typeCheckProcess` hold the
numeric handles of live checker child processes. -/
structure SrcPathData where
  srcPath : String
  tsconfig : Option String := none
  inputFiles : List String := []
  lintProcess : Option Nat := none
  needsReCheck : Bool := false
  typeCheckProcess : Option Nat := none
deriving DecidableEq

/-- The mutable state owned by the watcher (`this.state` in the constructor),
plus the promise registry for pending request callbacks, fresh-handle
counters, and the log of user-facing busy messages emitted by
`updateLambdaCodeBusyStatus`. -/
structure WatcherState where
  isProcessingLambdaChanges : Bool := false
  entryPointsData : List (String × EntryPointData) := []
  srcPathsData : List (String × SrcPathData) := []
  watchedNodeFilesIndex : List (String × List String) := []
  waiters : List (Nat × WaiterStatus) := []
  nextWaiterId : Nat := 0
  nextBuildId : Nat := 0
  nextProcId : Nat := 0
  msgs : List String := []
deriving DecidableEq

/-- Association-list lookup, mirroring JS object indexing `obj[key]`
(`none` plays the role of `undefined`). -/
def alookup [DecidableEq α] (key : α) : List (α × β) → Option β
  | [] => none
  | (k, v) :: rest => if k = key then some v else alookup key rest

/-- Association-list assignment `obj[key] = v`: replaces the first binding of
`key`, or appends a new binding (JS objects keep insertion order). -/
def aset [DecidableEq α] (key : α) (v : β) : List (α × β) → List (α × β)
  | [] => [(key, v)]
  | (k, w) :: rest => if k = key then (k, v) :: rest else (k, w) :: aset key v rest

/-- In-place update of the (unique) binding of `key`, mirroring a JS mutation
`obj[key] = { ...obj[key], ... }`.  Nothing happens when the key is absent. -/
def updEP [DecidableEq α] (key : α) (f : β → β) : List (α × β) → List (α × β)
  | [] => []
  | (k, v) :: rest => if k = key then (k, f v) :: rest else (k, v) :: updEP key f rest

/-- Remove the first occurrence of `key` from a list, mirroring
`indexOf` + `splice(index, 1)` in the source. -/
def removeFirst (key : String) : List String → List String
  | [] => []
  | k :: rest => if k = key then rest else k :: removeFirst key rest

/-- Does the character list start with the pattern?  (Structural helper for
the string tests below; the library string functions use well-founded
recursion and are avoided for the sake of kernel evaluation.) -/
def charListStarts : List Char → List Char → Bool
  | _, [] => true
  | [], _ :: _ => false
  | c :: s, p :: ps => c == p && charListStarts s ps

/-- Does the character list contain the pattern as a contiguous run? -/
def charListHas : List Char → List Char → Bool
  | [], pat => pat == []
  | c :: rest, pat => charListStarts (c :: rest) pat || charListHas rest pat

/-- `file.endsWith(pat)`. -/
def jsEndsWith (s pat : String) : Bool :=
  s.data.reverse.take pat.data.length == pat.data.reverse

/-- `file.indexOf(pat) !== -1`. -/
def containsSubstr (s pat : String) : Bool := charListHas s.data pat.data

/-- `list.slice(0, e)` with a possibly negative end index, as in
`goEPsNeedsRebuild.slice(0, concurrencyRemaining)`: a negative end counts from
the end of the list. -/
def jsSliceTo (l : List α) (e : Int) : List α :=
  if 0 ≤ e then l.take e.toNat else l.take ((l.length : Int) + e).toNat

/-- Result of `array.diff(oldList, newList)`.  Modelled from the spec:
`lib/array` is not part of the repository snapshot; the spec says the
scheduler must "Diff old vs new input sets; ADD newly referenced files ...;
REMOVE unreferenced ones". -/
structure ArrayDiff where
  add : List String
  remove : List String
deriving DecidableEq

/-- Modelled from the spec: `array.diff` from `lib/array` (missing from the
snapshot); `add` holds the newly referenced files, `remove` the files no
longer referenced. -/
def arrayDiff (oldList newList : List String) : ArrayDiff :=
  { add := newList.filter (fun f => !(oldList.contains f)),
    remove := oldList.filter (fun f => !(newList.contains f)) }

/-- Modelled from the spec: `array.unique` from `lib/array` (missing from the
snapshot); the spec describes the source-path record as holding the union of
`inputFiles` across its entry points. -/
def arrayUnique (l : List String) : List String :=
  l.foldl (fun acc f => if acc.contains f then acc else acc ++ [f]) []

/-- `buildEntryPointKey(srcPath, handler)`. -/
def buildEntryPointKey (srcPath handler : String) : String :=
  srcPath ++ "/" ++ handler

/-- Construction-time configuration (`config` in the constructor) together
with the per-handler data produced by the initial builds in `start` and the
environment-derived `BUILDER_CONCURRENCY = os.cpus().length`. -/
structure HandlerCfg where
  srcPath : String
  handler : String
  runtime : Runtime
  tsconfig : Option String := none
  initInputFiles : List String := []
  initOut : OutEntryPoint
  initBuildOk : Bool := true
deriving DecidableEq

structure Config where
  lambdaHandlers : List HandlerCfg
  builderConcurrency : Nat
  isLintEnabled : Bool
  isTypeCheckEnabled : Bool
deriving DecidableEq

/-- The three user-facing busy messages logged by
`updateLambdaCodeBusyStatus`. -/
def rebuildingMsg : String := "Rebuilding code..."

def doneMsg : String := "Done building code"

def failedMsg : String := "Rebuilding code failed"

/-- `updateLambdaCodeBusyStatus`: edge-detects the busy bit and logs exactly
one message per edge. -/
def updateLambdaCodeBusyStatus (s : WatcherState) : WatcherState :=
  if !s.isProcessingLambdaChanges then
    let needsReBuild := s.entryPointsData.any (fun kv => !(kv.2.needsReBuild == 0))
    if !needsReBuild then s
    else { s with isProcessingLambdaChanges := true, msgs := s.msgs ++ [rebuildingMsg] }
  else
    let isBuilding := s.entryPointsData.any
      (fun kv => !(kv.2.needsReBuild == 0) || kv.2.buildPromise.isSome)
    if isBuilding then s
    else
      let hasError := s.entryPointsData.any (fun kv => kv.2.hasError)
      if hasError then
        { s with isProcessingLambdaChanges := false, msgs := s.msgs ++ [failedMsg] }
      else
        let isChecking := s.srcPathsData.any
          (fun kv => kv.2.needsReCheck || kv.2.lintProcess.isSome || kv.2.typeCheckProcess.isSome)
        if isChecking then s
        else { s with isProcessingLambdaChanges := false, msgs := s.msgs ++ [doneMsg] }

/-- One iteration of the classification loop at the top of
`updateLambdaCodeState`: a go entry point with a build in flight is counted
as building; one with `LOW` priority is pushed to the back of the rebuild
queue; one with `HIGH` priority is unshifted to the front; a node entry point
without a build in flight that needs a rebuild is appended to the node list. -/
def gatherStep (acc : List String × List String × List String)
    (kv : String × EntryPointData) : List String × List String × List String :=
  let ep := kv.2
  let acc :=
    if isGoRuntime ep.runtime then
      if ep.buildPromise.isSome then (acc.1 ++ [kv.1], acc.2.1, acc.2.2)
      else if ep.needsReBuild == REBUILD_PRIORITY.LOW then
        (acc.1, acc.2.1 ++ [kv.1], acc.2.2)
      else if ep.needsReBuild == REBUILD_PRIORITY.HIGH then
        (acc.1, kv.1 :: acc.2.1, acc.2.2)
      else acc
    else acc
  if isNodeRuntime ep.runtime && ep.buildPromise.isNone && !(ep.needsReBuild == 0)
  then (acc.1, acc.2.1, acc.2.2 ++ [kv.1])
  else acc

/-- The classification loop: returns
`(goEPsBuilding, goEPsNeedsRebuild, nodeEPsNeedsRebuild)` as lists of entry
point keys. -/
def gatherBuildData (eps : List (String × EntryPointData)) :
    List String × List String × List String :=
  eps.foldl gatherStep ([], [], [])

/-- `onReBuildStarted` fused with the start of `reTranspile`/`reCompile`: a
fresh build promise handle is allocated and recorded for the entry point, and
its priority is cleared to `OFF`. -/
def onReBuildStarted (s : WatcherState) (key : String) : WatcherState :=
  let b := s.nextBuildId
  { s with
      nextBuildId := b + 1,
      entryPointsData :=
        updEP key
          (fun ep =>
            { ep with needsReBuild := REBUILD_PRIORITY.OFF, buildPromise := some b })
          s.entryPointsData }

/-- `runLint(srcPath)`: spawns the lint child process (modelled as allocating
a fresh process handle) unless lint is disabled or no lintable input files
remain after filtering. -/
def runLint (cfg : Config) (s : WatcherState) (srcPath : String) :
    WatcherState × Option Nat :=
  if !cfg.isLintEnabled then (s, none)
  else
    let inputFiles := ((alookup srcPath s.srcPathsData).map SrcPathData.inputFiles).getD []
    let inputFiles := inputFiles.filter
      (fun file =>
        !(containsSubstr file "node_modules") && (jsEndsWith file ".ts" || jsEndsWith file ".js"))
    if inputFiles.length == 0 then (s, none)
    else
      let p := s.nextProcId
      ({ s with nextProcId := p + 1 }, some p)

/-- `runTypeCheck(srcPath)`: spawns the type-check child process unless type
checking is disabled, there are no `.ts` input files, or the source path has
no `tsconfig` (in which case the error is logged and no process starts). -/
def runTypeCheck (cfg : Config) (s : WatcherState) (srcPath : String) :
    WatcherState × Option Nat :=
  if !cfg.isTypeCheckEnabled then (s, none)
  else
    let d := alookup srcPath s.srcPathsData
    let tsFiles := ((d.map SrcPathData.inputFiles).getD []).filter
      (fun file => jsEndsWith file ".ts")
    if tsFiles.length == 0 then (s, none)
    else if ((d.map SrcPathData.tsconfig).getD none).isNone then (s, none)
    else
      let p := s.nextProcId
      ({ s with nextProcId := p + 1 }, some p)

/-- The state update performed by `onLintAndTypeCheckStarted` before it
re-runs `updateLambdaCodeState`: record the new checker handles and clear
`needsReCheck`. -/
def setLintAndTypeCheckStarted (s : WatcherState) (srcPath : String)
    (lintProcess typeCheckProcess : Option Nat) : WatcherState :=
  let d := (alookup srcPath s.srcPathsData).getD { srcPath := srcPath }
  { s with
      srcPathsData :=
        aset srcPath
          { d with
              lintProcess := lintProcess,
              typeCheckProcess := typeCheckProcess,
              needsReCheck := false }
          s.srcPathsData }

/-- The lint / type-check loop at the bottom of `updateLambdaCodeState`,
parameterised by the re-entrant `updateLambdaCodeState` call performed inside
`onLintAndTypeCheckStarted` (passed as `upd`).  For each source path that
`needsReCheck`, the stale checker processes are killed (an external effect),
new ones are started, and `onLintAndTypeCheckStarted` records them and
reconciles again. -/
def runLintLoop (cfg : Config) (upd : WatcherState → WatcherState) :
    List String → WatcherState → WatcherState
  | [], s => s
  | srcPath :: rest, s =>
    match alookup srcPath s.srcPathsData with
    | none => runLintLoop cfg upd rest s
    | some d =>
      if d.needsReCheck then
        let r1 := runLint cfg s srcPath
        let r2 := runTypeCheck cfg r1.1 srcPath
        runLintLoop cfg upd rest (upd (setLintAndTypeCheckStarted r2.1 srcPath r1.2 r2.2))
      else runLintLoop cfg upd rest s

/-- The first half of `updateLambdaCodeState`: print the busy status, gather
the build data, start all dirty node builds, and start queued go builds up to
the remaining concurrency (`BUILDER_CONCURRENCY - goEPsBuilding.length`,
applied through `slice`). -/
def dispatchPass (cfg : Config) (s : WatcherState) : WatcherState :=
  let s := updateLambdaCodeBusyStatus s
  let gathered := gatherBuildData s.entryPointsData
  let s := gathered.2.2.foldl (fun t key => onReBuildStarted t key) s
  let concurrencyRemaining : Int :=
    (cfg.builderConcurrency : Int) - (gathered.1.length : Int)
  (jsSliceTo gathered.2.1 concurrencyRemaining).foldl (fun t key => onReBuildStarted t key) s

/-- `updateLambdaCodeState`: the single reconciliation pass — dispatch, then,
unless some entry point is still transpiling (`isTranspiling`) or failed
(`hasError`), run the linter and type checker for source paths that need a
recheck.  `fuel` bounds the re-entrant recursion through
`onLintAndTypeCheckStarted`; every caller passes at least
`srcPathsData.length + 1`, which the recursion (each level clears one
`needsReCheck` flag) never exhausts. -/
def updateLambdaCodeState (cfg : Config) : Nat → WatcherState → WatcherState
  | 0, s => s
  | fuel + 1, s =>
    let s := dispatchPass cfg s
    if s.entryPointsData.any (fun kv => kv.2.buildPromise.isSome) then s
    else if s.entryPointsData.any (fun kv => kv.2.hasError) then s
    else runLintLoop cfg (updateLambdaCodeState cfg fuel) (s.srcPathsData.map Prod.fst) s

/-- `onLintAndTypeCheckStarted`, as invoked with a given amount of fuel for
its reconciliation pass. -/
def onLintAndTypeCheckStarted (cfg : Config) (fuel : Nat) (s : WatcherState)
    (srcPath : String) (lintProcess typeCheckProcess : Option Nat) : WatcherState :=
  updateLambdaCodeState cfg fuel (setLintAndTypeCheckStarted s srcPath lintProcess typeCheckProcess)

/-- Fuel sufficient for any reconciliation pass started from `s`. -/
def defaultFuel (s : WatcherState) : Nat := s.srcPathsData.length + 1

/-- Resolve one promise: a no-op unless it is still pending (JS promises are
one-shot). -/
def resolveWaiter (w : Nat) (s : WatcherState) : WatcherState :=
  { s with
      waiters := s.waiters.map
        (fun kv => if kv.1 = w ∧ kv.2 = WaiterStatus.pending then (kv.1, WaiterStatus.resolved) else kv) }

/-- Reject one promise with a message: a no-op unless it is still pending. -/
def rejectWaiter (w : Nat) (msg : String) (s : WatcherState) : WatcherState :=
  { s with
      waiters := s.waiters.map
        (fun kv =>
          if kv.1 = w ∧ kv.2 = WaiterStatus.pending then (kv.1, WaiterStatus.rejected msg) else kv) }

/-- `pendingRequestCallbacks.forEach(({ resolve }) => resolve())`. -/
def resolveAll (ws : List Nat) (s : WatcherState) : WatcherState :=
  ws.foldl (fun t w => resolveWaiter w t) s

/-- `pendingRequestCallbacks.forEach(({ reject }) => reject(...))`. -/
def rejectAll (ws : List Nat) (msg : String) (s : WatcherState) : WatcherState :=
  ws.foldl (fun t w => rejectWaiter w msg t) s

/-- The rejection message used by `onReBuildFailed`. -/
def failRejectMsg (srcPath handler : String) : String :=
  "Failed to transpile srcPath " ++ srcPath ++ " handler " ++ handler

/-- `onBuildSucceeded(srcPath, handler, { tsconfig, esbuilder, outEntryPoint,
inputFiles })`: records the first successful build of an entry point, resets
the source-path record from the template, and indexes every input file.
The opaque `esbuilder` handle is not modelled. -/
def onBuildSucceeded (s : WatcherState) (srcPath handler : String)
    (tsconfig : Option String) (outEntryPoint : OutEntryPoint)
    (inputFiles : List String) : WatcherState :=
  let key := buildEntryPointKey srcPath handler
  let s :=
    { s with
        entryPointsData :=
          updEP key
            (fun ep =>
              { ep with
                  tsconfig := tsconfig,
                  inputFiles := inputFiles,
                  outEntryPoint := some outEntryPoint })
            s.entryPointsData }
  let s :=
    { s with
        srcPathsData :=
          aset srcPath
            { srcPath := srcPath, tsconfig := tsconfig, inputFiles := inputFiles }
            s.srcPathsData }
  { s with
      watchedNodeFilesIndex :=
        inputFiles.foldl
          (fun idx file => aset file (((alookup file idx).getD []) ++ [key]) idx)
          s.watchedNodeFilesIndex }

/-- The entry-point record update at the top of `onReBuildSucceeded`: the new
input files are recorded, `hasError` and the build handle are cleared, and the
priority is set to the value computed from the input-file diff. -/
def reBuildSucceededUpdateEP (s : WatcherState) (key : String) (needsReBuild : Nat)
    (inputFiles : List String) : WatcherState :=
  { s with
      entryPointsData :=
        updEP key
          (fun ep =>
            { ep with
                inputFiles := inputFiles,
                hasError := false,
                buildPromise := none,
                needsReBuild := needsReBuild })
          s.entryPointsData }

/-- The node-runtime branch of `onReBuildSucceeded`: refresh the source-path
record (union of input files, `needsReCheck` set) and patch the watched-file
index with the input-file diff.  The check
`watchedNodeFilesIndex[file] === 0` in the source compares an array with the
number `0` and is never true, so the index key is never deleted. -/
def reBuildSucceededNodeSync (s : WatcherState) (key srcPath : String)
    (inputFilesDiff : ArrayDiff) : WatcherState :=
  let srcPathInputFiles :=
    ((s.entryPointsData.filter (fun kv => kv.2.srcPath == srcPath)).map
      (fun kv => kv.2.inputFiles)).flatten
  let d := (alookup srcPath s.srcPathsData).getD { srcPath := srcPath }
  let s :=
    { s with
        srcPathsData :=
          aset srcPath
            { d with inputFiles := arrayUnique srcPathInputFiles, needsReCheck := true }
            s.srcPathsData }
  let s :=
    { s with
        watchedNodeFilesIndex :=
          inputFilesDiff.add.foldl
            (fun idx file => aset file (((alookup file idx).getD []) ++ [key]) idx)
            s.watchedNodeFilesIndex }
  { s with
      watchedNodeFilesIndex :=
        inputFilesDiff.remove.foldl
          (fun idx file =>
            match alookup file idx with
            | none => idx
            | some l => aset file (removeFirst key l) idx)
          s.watchedNodeFilesIndex }

/-- The pre-reconciliation part of `onReBuildSucceeded`: the optimistic `LOW`
priority is set when new input files appeared while the priority was `OFF`,
the entry-point record is refreshed, and for node runtimes the source-path
record and the watched-file index are synchronised. -/
def reBuildSucceededMid (s : WatcherState) (key srcPath : String)
    (ep0 : EntryPointData) (inputFiles : List String) : WatcherState :=
  let inputFilesDiff := arrayDiff ep0.inputFiles inputFiles
  let hasNewInputFiles := !(inputFilesDiff.add.length == 0)
  let needsReBuild :=
    if ep0.needsReBuild == 0 && hasNewInputFiles then REBUILD_PRIORITY.LOW
    else ep0.needsReBuild
  let s := reBuildSucceededUpdateEP s key needsReBuild inputFiles
  if isNodeRuntime ep0.runtime then reBuildSucceededNodeSync s key srcPath inputFilesDiff
  else s

/-- `onReBuildSucceeded(srcPath, handler, { inputFiles })`: the state update
of `reBuildSucceededMid`, then a reconciliation pass, and the pending requests
are resolved only if the priority is `OFF` at that point. -/
def onReBuildSucceeded (cfg : Config) (fuel : Nat) (s : WatcherState)
    (srcPath handler : String) (inputFiles : List String) : WatcherState :=
  let key := buildEntryPointKey srcPath handler
  match alookup key s.entryPointsData with
  | none => s
  | some ep0 =>
    let s := updateLambdaCodeState cfg fuel (reBuildSucceededMid s key srcPath ep0 inputFiles)
    match alookup key s.entryPointsData with
    | none => s
    | some ep2 =>
      if ep2.needsReBuild == 0 then resolveAll ep2.pendingRequestCallbacks s else s

/-- The entry-point record update at the top of `onReBuildFailed`. -/
def reBuildFailedUpdateEP (s : WatcherState) (key : String) : WatcherState :=
  { s with
      entryPointsData :=
        updEP key (fun ep => { ep with hasError := true, buildPromise := none })
          s.entryPointsData }

/-- `onReBuildFailed(srcPath, handler)`: records the failure, clears the build
handle, reconciles, and rejects the pending requests only if the priority is
`OFF` after the pass. -/
def onReBuildFailed (cfg : Config) (fuel : Nat) (s : WatcherState)
    (srcPath handler : String) : WatcherState :=
  let key := buildEntryPointKey srcPath handler
  let s := reBuildFailedUpdateEP s key
  let s := updateLambdaCodeState cfg fuel s
  match alookup key s.entryPointsData with
  | none => s
  | some ep2 =>
    if ep2.needsReBuild == 0 then
      rejectAll ep2.pendingRequestCallbacks (failRejectMsg srcPath handler) s
    else s

/-- `onFileChange(ev, file)` restricted to the Lambda-code portion (the
`cdkState.onFileChange` call concerns the infrastructure state machine, which
is outside the modelled core).  A `.go` file marks every go entry point; any
other file consults `watchedNodeFilesIndex` and returns early when the file is
not a key there (note that an empty index entry is truthy in JS and does not
return early). -/
def onFileChange (cfg : Config) (fuel : Nat) (s : WatcherState) (file : String) :
    WatcherState :=
  let entryPointKeys : Option (List String) :=
    if jsEndsWith file ".go" then
      some ((s.entryPointsData.filter (fun kv => isGoRuntime kv.2.runtime)).map Prod.fst)
    else alookup file s.watchedNodeFilesIndex
  match entryPointKeys with
  | none => s
  | some keys =>
    let s :=
      { s with
          entryPointsData :=
            keys.foldl
              (fun eps key =>
                updEP key (fun ep => { ep with needsReBuild := REBUILD_PRIORITY.LOW }) eps)
              s.entryPointsData }
    updateLambdaCodeState cfg fuel s

/-- `onLintDone(srcPath)`. -/
def onLintDone (cfg : Config) (fuel : Nat) (s : WatcherState) (srcPath : String) :
    WatcherState :=
  let d := (alookup srcPath s.srcPathsData).getD { srcPath := srcPath }
  let s := { s with srcPathsData := aset srcPath { d with lintProcess := none } s.srcPathsData }
  updateLambdaCodeState cfg fuel s

/-- `onTypeCheckDone(srcPath)`. -/
def onTypeCheckDone (cfg : Config) (fuel : Nat) (s : WatcherState) (srcPath : String) :
    WatcherState :=
  let d := (alookup srcPath s.srcPathsData).getD { srcPath := srcPath }
  let s :=
    { s with srcPathsData := aset srcPath { d with typeCheckProcess := none } s.srcPathsData }
  updateLambdaCodeState cfg fuel s

/-- JS exceptions that escape a modelled function. -/
inductive JsError
  | typeError
deriving DecidableEq

/-- Observable outcome of a `getTranspiledHandler` call: an immediate return
with the current artifact, a suspension on a freshly registered waiter, or a
thrown `TypeError` (property access on an `undefined` registry entry). -/
inductive GetResult
  | immediate (runtime : Runtime) (out : Option OutEntryPoint)
  | suspended (waiterId : Nat)
  | thrown (e : JsError)
deriving DecidableEq

/-- `getTranspiledHandler(srcPath, handler)`.  When the registry has no entry
for the key, the source reads `entryPointData.buildPromise` off `undefined`
and throws a `TypeError`.  When the entry point is building or pending
rebuild, the priority is raised to `HIGH` and a fresh pending promise is
pushed onto `pendingRequestCallbacks` (`requestEnqueue`); the caller suspends
on it.  Otherwise the current `outEntryPoint` is returned at once and the
state is untouched.  Note that this function does not trigger a
reconciliation pass. -/
def requestEnqueue (s : WatcherState) (key : String) : WatcherState :=
  let w := s.nextWaiterId
  { s with
      nextWaiterId := w + 1,
      waiters := s.waiters ++ [(w, WaiterStatus.pending)],
      entryPointsData :=
        updEP key
          (fun ep =>
            { ep with
                needsReBuild := REBUILD_PRIORITY.HIGH,
                pendingRequestCallbacks := ep.pendingRequestCallbacks ++ [w] })
          s.entryPointsData }

def getTranspiledHandler (s : WatcherState) (srcPath handler : String) :
    GetResult × WatcherState :=
  let key := buildEntryPointKey srcPath handler
  match alookup key s.entryPointsData with
  | none => (GetResult.thrown JsError.typeError, s)
  | some entryPointData =>
    if entryPointData.buildPromise.isSome || !(entryPointData.needsReBuild == 0) then
      (GetResult.suspended s.nextWaiterId, requestEnqueue s key)
    else (GetResult.immediate entryPointData.runtime entryPointData.outEntryPoint, s)

/-- `initializeState()`: one template record per configured handler
(each gets its own empty `pendingRequestCallbacks`). -/
def stateInit (cfg : Config) : WatcherState :=
  { entryPointsData :=
      cfg.lambdaHandlers.foldl
        (fun eps hc =>
          aset (buildEntryPointKey hc.srcPath hc.handler)
            { srcPath := hc.srcPath, handler := hc.handler, runtime := hc.runtime }
            eps)
        [] }

/-- The initial builds run by `start` via `Promise.allSettled`: every handler
whose build succeeds is recorded through `onBuildSucceeded` (go and python
builds report an empty input-file list, as `compile` and `buildPython` do). -/
def runInitialBuilds (cfg : Config) (s : WatcherState) : WatcherState :=
  cfg.lambdaHandlers.foldl
    (fun t hc =>
      if hc.initBuildOk then
        onBuildSucceeded t hc.srcPath hc.handler hc.tsconfig hc.initOut
          (if isNodeRuntime hc.runtime then hc.initInputFiles else [])
      else t)
    s

/-- `start(isTest)`.  The returned boolean records whether the watcher was
installed.  After the initial builds, a single rejected build fails `start`;
with `isTest` set, `start` returns before the "no handlers" validation and
before lint, type check and watcher installation. -/
def startModel (cfg : Config) (isTest : Bool) : Except String (WatcherState × Bool) :=
  let s := stateInit cfg
  let s := runInitialBuilds cfg s
  let hasError := cfg.lambdaHandlers.any (fun hc => !hc.initBuildOk)
  if hasError then Except.error "Failed to build the Lambda handlers"
  else if isTest then Except.ok (s, false)
  else
    let srcPaths := s.srcPathsData.map Prod.fst
    if srcPaths.length == 0 then Except.error "No Lambda handlers are found in the app"
    else
      let s :=
        srcPaths.foldl
          (fun t srcPath =>
            let r1 := runLint cfg t srcPath
            let r2 := runTypeCheck cfg r1.1 srcPath
            onLintAndTypeCheckStarted cfg (defaultFuel r2.1) r2.1 srcPath r1.2 r2.2)
          s
      Except.ok (s, true)

/-- Events marshalled back to the single control thread. -/
inductive Ev
  | fileChange (file : String)
  | request (srcPath handler : String)
  | reBuildSucceeded (srcPath handler : String) (inputFiles : List String)
  | reBuildFailed (srcPath handler : String)
  | lintDone (srcPath : String)
  | typeCheckDone (srcPath : String)

/-- Whether a rebuild of the given entry point is in flight. -/
def buildInFlight (s : WatcherState) (key : String) : Bool :=
  match alookup key s.entryPointsData with
  | some ep => ep.buildPromise.isSome
  | none => false

/-- One event-handler invocation of the watcher.  Build-outcome events require
a build to actually be in flight; checker-exit events require the source path
to exist.  Each handler runs with the standard fuel. -/
inductive Step (cfg : Config) : WatcherState → Ev → WatcherState → Prop
  | fileChange (s : WatcherState) (file : String) :
      Step cfg s (Ev.fileChange file) (onFileChange cfg (defaultFuel s) s file)
  | request (s : WatcherState) (srcPath handler : String)
      (hk : (alookup (buildEntryPointKey srcPath handler) s.entryPointsData).isSome = true) :
      Step cfg s (Ev.request srcPath handler) (getTranspiledHandler s srcPath handler).2
  | reBuildSucceeded (s : WatcherState) (srcPath handler : String) (inputFiles : List String)
      (hb : buildInFlight s (buildEntryPointKey srcPath handler) = true) :
      Step cfg s (Ev.reBuildSucceeded srcPath handler inputFiles)
        (onReBuildSucceeded cfg (defaultFuel s) s srcPath handler inputFiles)
  | reBuildFailed (s : WatcherState) (srcPath handler : String)
      (hb : buildInFlight s (buildEntryPointKey srcPath handler) = true) :
      Step cfg s (Ev.reBuildFailed srcPath handler)
        (onReBuildFailed cfg (defaultFuel s) s srcPath handler)
  | lintDone (s : WatcherState) (srcPath : String)
      (hs : (alookup srcPath s.srcPathsData).isSome = true) :
      Step cfg s (Ev.lintDone srcPath) (onLintDone cfg (defaultFuel s) s srcPath)
  | typeCheckDone (s : WatcherState) (srcPath : String)
      (hs : (alookup srcPath s.srcPathsData).isSome = true) :
      Step cfg s (Ev.typeCheckDone srcPath) (onTypeCheckDone cfg (defaultFuel s) s srcPath)

/-- States reachable once `start(false)` has completed successfully and the
watcher is running. -/
inductive Reachable (cfg : Config) : WatcherState → Prop
  | init (s : WatcherState) (h : startModel cfg false = Except.ok (s, true)) :
      Reachable cfg s
  | step {s t : WatcherState} {e : Ev} :
      Reachable cfg s → Step cfg s e t → Reachable cfg t

/-- Number of go entry points with a build in flight. -/
def goBuildingCount (s : WatcherState) : Nat :=
  s.entryPointsData.countP (fun kv => isGoRuntime kv.2.runtime && kv.2.buildPromise.isSome)

/-- The esbuild metafile: a JSON object whose `inputs` keys are the input
paths. -/
structure EsbuildMetafile where
  inputs : List String
deriving DecidableEq

/-- `path.resolve(input)` on the metafile input paths; the resolution against
the working directory is irrelevant to the modelled claims. -/
def pathResolve (input : String) : String := input

/-- `getInputFilesFromEsbuildMetafile(file)`.  `fs.readJson` either yields the
metafile or fails; a failure is caught and logged, leaving `metaJson`
undefined, after which `Object.keys(metaJson.inputs)` throws a `TypeError`
that propagates to the caller. -/
def getInputFilesFromEsbuildMetafile (readResult : Except String EsbuildMetafile) :
    Except JsError (List String) :=
  let metaJson : Option EsbuildMetafile :=
    match readResult with
    | Except.ok m => some m
    | Except.error _ => none
  match metaJson with
  | some m => Except.ok (m.inputs.map (fun input => pathResolve input))
  | none => Except.error JsError.typeError

/-! Concrete configurations and traces used by the counterexamples and
witnesses below. -/

/-- Output artifact of the node handler in `cfg1`. -/
def outA : OutEntryPoint :=
  { entry := "h.js", outHandler := some "handler", outSrcPath := some "s/.build/src",
    origHandlerFullPosixPath := "s/src/h.handler" }

/-- One node handler whose initial build reads the single file `/a/f.ts`. -/
def cfg1 : Config :=
  { lambdaHandlers :=
      [{ srcPath := "s", handler := "src/h.handler", runtime := Runtime.node,
         initInputFiles := ["/a/f.ts"], initOut := outA }],
    builderConcurrency := 4, isLintEnabled := false, isTypeCheckEnabled := false }

def key1 : String := buildEntryPointKey "s" "src/h.handler"

/-- State after `start(false)` for `cfg1`. -/
def t0 : WatcherState := ((startModel cfg1 false).toOption.getD ({}, false)).1

/-- `/a/f.ts` changes: the entry point is marked `LOW` and dispatched. -/
def t1 : WatcherState := onFileChange cfg1 (defaultFuel t0) t0 "/a/f.ts"

/-- `getTranspiledHandler` is called while the rebuild is in flight: priority
goes to `HIGH` and waiter 0 is registered. -/
def t2 : WatcherState := (getTranspiledHandler t1 "s" "src/h.handler").2

/-- The in-flight rebuild succeeds with the same input files. -/
def t3 : WatcherState := onReBuildSucceeded cfg1 (defaultFuel t2) t2 "s" "src/h.handler" ["/a/f.ts"]

/-- The follow-up rebuild succeeds as well. -/
def t4 : WatcherState := onReBuildSucceeded cfg1 (defaultFuel t3) t3 "s" "src/h.handler" ["/a/f.ts"]

/-- Alternative continuation of `t2`: `/a/f.ts` changes again while the
priority is `HIGH`. -/
def t3b : WatcherState := onFileChange cfg1 (defaultFuel t2) t2 "/a/f.ts"

/-- Output artifacts of the two go handlers in `cfg2`. -/
def outG1 : OutEntryPoint :=
  { entry := "s1/.build/src/a", outHandler := none, outSrcPath := none,
    origHandlerFullPosixPath := "s1/src/a.go" }

def outG2 : OutEntryPoint :=
  { entry := "s2/.build/src/b", outHandler := none, outSrcPath := none,
    origHandlerFullPosixPath := "s2/src/b.go" }

/-- Two go handlers on a host with one hardware thread
(`BUILDER_CONCURRENCY = 1`). -/
def cfg2 : Config :=
  { lambdaHandlers :=
      [{ srcPath := "s1", handler := "src/a.go", runtime := Runtime.go, initOut := outG1 },
       { srcPath := "s2", handler := "src/b.go", runtime := Runtime.go, initOut := outG2 }],
    builderConcurrency := 1, isLintEnabled := false, isTypeCheckEnabled := false }

def keyG1 : String := buildEntryPointKey "s1" "src/a.go"

def keyG2 : String := buildEntryPointKey "s2" "src/b.go"

/-- State after `start(false)` for `cfg2`. -/
def g0 : WatcherState := ((startModel cfg2 false).toOption.getD ({}, false)).1

/-- A `.go` file changes: both entry points go `LOW`; only the first is
dispatched (concurrency 1). -/
def g1 : WatcherState := onFileChange cfg2 (defaultFuel g0) g0 "x.go"

/-- `getTranspiledHandler` for the queued second entry point: priority `HIGH`,
waiter 0 registered. -/
def g2 : WatcherState := (getTranspiledHandler g1 "s2" "src/b.go").2

/-- The first entry point's build succeeds; the second (HIGH) is dispatched. -/
def g3 : WatcherState := onReBuildSucceeded cfg2 (defaultFuel g2) g2 "s1" "src/a.go" []

/-- Another `.go` file changes while the second entry point is building: both
entry points go `LOW` again; nothing can be dispatched (concurrency 1). -/
def g4 : WatcherState := onFileChange cfg2 (defaultFuel g3) g3 "y.go"

/-- The second entry point's build fails.  The reconciliation pass dispatches
the first entry point, the second stays `LOW`, and the rejection of its
pending request is skipped. -/
def g5 : WatcherState := onReBuildFailed cfg2 (defaultFuel g4) g4 "s2" "src/b.go"

/-- A configuration with no handlers at all. -/
def cfgEmpty : Config :=
  { lambdaHandlers := [], builderConcurrency := 4,
    isLintEnabled := true, isTypeCheckEnabled := true }

/-- The registry record of the `cfg1` entry point right after `start`. -/
def epT0 : EntryPointData :=
  { srcPath := "s", handler := "src/h.handler", runtime := Runtime.node,
    outEntryPoint := some outA, inputFiles := ["/a/f.ts"] }

/-- The same record in `t2`: building, priority `HIGH`, waiter 0 queued. -/
def epT2 : EntryPointData :=
  { epT0 with
      buildPromise := some 0, needsReBuild := REBUILD_PRIORITY.HIGH,
      pendingRequestCallbacks := [0] }

/-- The same record in `t3`: follow-up build 1 in flight, priority `OFF`. -/
def epT3 : EntryPointData :=
  { epT0 with buildPromise := some 1, pendingRequestCallbacks := [0] }

/-- The second go record in `g4`: building, priority `LOW`, waiter 0
queued. -/
def epG4 : EntryPointData :=
  { srcPath := "s2", handler := "src/b.go", runtime := Runtime.go,
    buildPromise := some 1, outEntryPoint := some outG2,
    needsReBuild := REBUILD_PRIORITY.LOW, pendingRequestCallbacks := [0] }

/-- The same record in `g5`, after its build failed. -/
def epG5 : EntryPointData :=
  { epG4 with hasError := true, buildPromise := none }

/-! Specification-side definitions used to state the theorems below. -/

/-- One step of the busy-message protocol: from busy bit `b`, message `m` is
legal and flips the bit as recorded. -/
def chkStep (b : Bool) (m : String) : Option Bool :=
  if b then (if m = doneMsg ∨ m = failedMsg then some false else none)
  else (if m = rebuildingMsg then some true else none)

/-- Replays a message log against the busy-message protocol starting from
NOT-BUSY; `some b` means the log is a strict alternation of one
"Rebuilding code..." per NOT-BUSY-to-BUSY edge and one terminal message per
BUSY-to-NOT-BUSY edge, ending with busy bit `b`. -/
def chkMsgs (l : List String) : Option Bool :=
  l.foldl (fun acc m => acc.bind (fun b => chkStep b m)) (some false)

/-- The record produced by `onReBuildStarted` for an entry point that is
dispatched within a reconciliation pass. -/
def startedFrom (ep : EntryPointData) (b : Nat) : EntryPointData :=
  { ep with needsReBuild := REBUILD_PRIORITY.OFF, buildPromise := some b }

/-- How a reconciliation pass may change the entry-point registry: each entry
point is either untouched or dispatched (priority cleared, fresh build
promise); nothing else about it changes. -/
def EpEvo (eps1 eps2 : List (String × EntryPointData)) : Prop :=
  ∀ k : String,
    alookup k eps2 = alookup k eps1 ∨
    ∃ ep b, alookup k eps1 = some ep ∧ alookup k eps2 = some (startedFrom ep b)

/-- Everything a reconciliation pass (`updateLambdaCodeState`) can do to the
state, as seen by the claims: entry points evolve by `EpEvo`, the registry
keys, the waiter registry and the waiter counter are untouched, and the busy
message log stays a valid alternation. -/
structure Evo (s t : WatcherState) : Prop where
  eps : EpEvo s.entryPointsData t.entryPointsData
  epsKeys : t.entryPointsData.map Prod.fst = s.entryPointsData.map Prod.fst
  waiters : t.waiters = s.waiters
  nextWaiterId : t.nextWaiterId = s.nextWaiterId
  chk : chkMsgs s.msgs = some s.isProcessingLambdaChanges →
    chkMsgs t.msgs = some t.isProcessingLambdaChanges

/-- The go rebuild queue is well formed relative to the registry: a block of
HIGH-priority keys followed by a block of LOW-priority keys, all go, all
without a build in flight. -/
def GoQueueOk (eps : List (String × EntryPointData)) (q : List String) : Prop :=
  ∃ hs ls, q = hs ++ ls ∧
    (∀ k ∈ hs, ∃ ep, (k, ep) ∈ eps ∧ isGoRuntime ep.runtime = true ∧
      ep.buildPromise = none ∧ ep.needsReBuild = REBUILD_PRIORITY.HIGH) ∧
    (∀ k ∈ ls, ∃ ep, (k, ep) ∈ eps ∧ isGoRuntime ep.runtime = true ∧
      ep.buildPromise = none ∧ ep.needsReBuild = REBUILD_PRIORITY.LOW)

/-- The node rebuild list is well formed relative to the registry. -/
def NodeQueueOk (eps : List (String × EntryPointData)) (q : List String) : Prop :=
  ∀ k ∈ q, ∃ ep, (k, ep) ∈ eps ∧ isNodeRuntime ep.runtime = true ∧
    ep.buildPromise = none ∧ ep.needsReBuild ≠ 0

/-- The entry counted by `goBuildingCount`. -/
def goSomeP (kv : String × EntryPointData) : Bool :=
  isGoRuntime kv.2.runtime && kv.2.buildPromise.isSome

/-- The master state invariant: (1) registry keys are unique (JS object);
(2) at most `BUILDER_CONCURRENCY` go builds in flight; (3) the busy message
log is a strict alternation matching the busy bit; (4) every waiter queued on
a clean entry point (no build in flight, priority `OFF`) has been settled;
(5) every queued waiter id was allocated. -/
def Inv (cfg : Config) (s : WatcherState) : Prop :=
  (s.entryPointsData.map Prod.fst).Nodup ∧
  goBuildingCount s ≤ cfg.builderConcurrency ∧
  chkMsgs s.msgs = some s.isProcessingLambdaChanges ∧
  (∀ key ep, alookup key s.entryPointsData = some ep →
    ep.buildPromise = none → ep.needsReBuild = 0 →
    ∀ w ∈ ep.pendingRequestCallbacks,
      ¬ alookup w s.waiters = some WaiterStatus.pending) ∧
  (∀ key ep, alookup key s.entryPointsData = some ep →
    ∀ w ∈ ep.pendingRequestCallbacks, w < s.nextWaiterId)

/-! Reachability of the concrete traces. -/

theorem reachable_t0 : Reachable cfg1 t0 :=
  Reachable.init t0 (by decide)

theorem reachable_t1 : Reachable cfg1 t1 :=
  Reachable.step reachable_t0 (Step.fileChange t0 "/a/f.ts")

theorem reachable_t2 : Reachable cfg1 t2 :=
  Reachable.step reachable_t1 (Step.request t1 "s" "src/h.handler" (by decide))

theorem reachable_t3 : Reachable cfg1 t3 :=
  Reachable.step reachable_t2
    (Step.reBuildSucceeded t2 "s" "src/h.handler" ["/a/f.ts"] (by decide))

theorem reachable_t4 : Reachable cfg1 t4 :=
  Reachable.step reachable_t3
    (Step.reBuildSucceeded t3 "s" "src/h.handler" ["/a/f.ts"] (by decide))

theorem reachable_g0 : Reachable cfg2 g0 :=
  Reachable.init g0 (by decide)

theorem reachable_g1 : Reachable cfg2 g1 :=
  Reachable.step reachable_g0 (Step.fileChange g0 "x.go")

theorem reachable_g2 : Reachable cfg2 g2 :=
  Reachable.step reachable_g1 (Step.request g1 "s2" "src/b.go" (by decide))

theorem reachable_g3 : Reachable cfg2 g3 :=
  Reachable.step reachable_g2 (Step.reBuildSucceeded g2 "s1" "src/a.go" [] (by decide))

theorem reachable_g4 : Reachable cfg2 g4 :=
  Reachable.step reachable_g3 (Step.fileChange g3 "y.go")

theorem reachable_g5 : Reachable cfg2 g5 :=
  Reachable.step reachable_g4 (Step.reBuildFailed g4 "s2" "src/b.go" (by decide))

/-! Claim C9 (code bug in `getInputFilesFromEsbuildMetafile`). -/

/-- C9: the claim states that when reading the bundler metafile fails, the
result is an empty input-file set and the failure never propagates out of the
metafile-reading step.  In the code the read failure is indeed logged, but
`metaJson` is left undefined and `Object.keys(metaJson.inputs)` then throws a
`TypeError` that propagates to the caller: for every read error the function
throws instead of returning the empty set. -/
theorem metafile_read_failure_throws :
    ∀ e : String,
      getInputFilesFromEsbuildMetafile (Except.error e) = Except.error JsError.typeError := by
  intro e
  rfl

/-! Claim C10 (unregistered entry point). -/

/-- C10: calling `getTranspiledHandler` with a `(srcPath, handler)` pair that
is not in the registry throws a `TypeError` (property access on an undefined
registry entry) rather than returning an artifact or registering a waiter:
the state is returned untouched together with the thrown error. -/
theorem getTranspiledHandler_unregistered_throws :
    ∀ (s : WatcherState) (srcPath handler : String),
      alookup (buildEntryPointKey srcPath handler) s.entryPointsData = none →
      getTranspiledHandler s srcPath handler = (GetResult.thrown JsError.typeError, s) := by
  intro s srcPath handler h
  simp only [getTranspiledHandler, h]

/-- Witness for C10: the pair `("x", "y")` is not registered in `cfg1`, and
the call on the started state `t0` throws. -/
theorem getTranspiledHandler_unregistered_throws_witness :
    alookup (buildEntryPointKey "x" "y") t0.entryPointsData = none ∧
    getTranspiledHandler t0 "x" "y" = (GetResult.thrown JsError.typeError, t0) :=
  ⟨by decide, getTranspiledHandler_unregistered_throws t0 "x" "y" (by decide)⟩

/-! Claim C8 (`start` exit semantics). -/

/-- C8 counterexample: with no handlers and `isTest = true`, `start` returns
successfully (without installing watchers) instead of rejecting with
"No Lambda handlers are found in the app": the `isTest` early return sits
before the validation. -/
theorem start_no_handlers_isTest_no_error :
    startModel cfgEmpty true = Except.ok (stateInit cfgEmpty, false) := by
  decide

/-- C8 amended: `start` rejects with "Failed to build the Lambda handlers"
iff some initial build fails; with no build failure and `isTest = true` it
returns right away without installing watchers (skipping the handler
validation); the "No Lambda handlers are found in the app" rejection happens
only when `isTest` is false. -/
theorem start_spec :
    ∀ (cfg : Config) (isTest : Bool),
      (startModel cfg isTest = Except.error "Failed to build the Lambda handlers" ↔
        cfg.lambdaHandlers.any (fun hc => !hc.initBuildOk) = true) ∧
      (cfg.lambdaHandlers.any (fun hc => !hc.initBuildOk) = false → isTest = true →
        startModel cfg isTest =
          Except.ok (runInitialBuilds cfg (stateInit cfg), false)) ∧
      (cfg.lambdaHandlers = [] → isTest = false →
        startModel cfg isTest = Except.error "No Lambda handlers are found in the app") := by
  intro cfg isTest
  by_cases hb : cfg.lambdaHandlers.any (fun hc => !hc.initBuildOk) = true
  · refine ⟨⟨fun _ => hb, fun _ => by simp [startModel, hb]⟩, ?_, ?_⟩
    · intro hb2 _
      rw [hb2] at hb
      exact absurd hb (by decide)
    · intro hemp _
      rw [hemp] at hb
      exact absurd hb (by decide)
  · rw [Bool.not_eq_true] at hb
    refine ⟨⟨fun h => ?_, fun h => by rw [h] at hb; exact absurd hb (by decide)⟩, ?_, ?_⟩
    · exfalso
      rcases isTest with _ | _
      · simp only [startModel, hb] at h
        simp only [Bool.false_eq_true, if_false] at h
        split at h
        · exact absurd (Except.error.inj h) (by decide)
        · exact Except.noConfusion h
      · simp only [startModel, hb] at h
        simp only [Bool.false_eq_true, if_false, if_true] at h
        exact Except.noConfusion h
    · intro _ ht
      simp [startModel, hb, ht]
    · intro hemp ht
      simp [startModel, hb, hemp, ht, stateInit, runInitialBuilds]

/-- Witness for C8 amended: with `cfg1` (all builds succeed) the failure
rejection does not occur; with `cfgEmpty` and `isTest = false` the no-handler
rejection does occur. -/
theorem start_spec_witness :
    (¬ startModel cfg1 false = Except.error "Failed to build the Lambda handlers") ∧
    (cfgEmpty.lambdaHandlers = [] ∧
      startModel cfgEmpty false = Except.error "No Lambda handlers are found in the app") := by
  constructor
  · intro h
    have h2 := (start_spec cfg1 false).1.1 h
    exact absurd h2 (by decide)
  · exact ⟨rfl, (start_spec cfgEmpty false).2.2 rfl rfl⟩

/-! Claim C2 counterexample. -/

/-- C2 counterexample: in the reachable state `t4` the entry point is clean
(no build in flight, priority `OFF`) yet `pendingRequestCallbacks` still holds
the woken waiter — `onReBuildSucceeded` resolves the pending requests but
never empties the list. -/
theorem pendingCallbacks_nonempty_clean_state_reachable :
    Reachable cfg1 t4 ∧
    (alookup key1 t4.entryPointsData).map
        (fun ep => (ep.pendingRequestCallbacks, ep.buildPromise, ep.needsReBuild)) =
      some ([0], none, REBUILD_PRIORITY.OFF) :=
  ⟨reachable_t4, by decide⟩

/-! Claim C3 counterexample. -/

/-- C3 counterexample: in the reachable state `t2` the entry point's priority
has been raised to `HIGH`; the subsequent file-change event (with no
successful build in between) lowers it to `LOW`. -/
theorem high_priority_demoted_by_fileChange :
    Reachable cfg1 t2 ∧
    (alookup key1 t2.entryPointsData).map EntryPointData.needsReBuild =
      some REBUILD_PRIORITY.HIGH ∧
    Step cfg1 t2 (Ev.fileChange "/a/f.ts") t3b ∧
    (alookup key1 t3b.entryPointsData).map EntryPointData.needsReBuild =
      some REBUILD_PRIORITY.LOW :=
  ⟨reachable_t2, by decide, Step.fileChange t2 "/a/f.ts", by decide⟩

/-! Claim C4 counterexample. -/

/-- C4 counterexample: in the reachable state `g4` the second go entry point
is building with a pending request; its build then fails, `hasError` is set,
but the pending request is NOT rejected (it is still pending in `g5`) because
the entry point's priority is `LOW` after the post-failure reconciliation
pass. -/
theorem rebuildFailed_waiters_not_rejected :
    Reachable cfg2 g4 ∧
    (alookup keyG2 g4.entryPointsData).map
        (fun ep => (ep.pendingRequestCallbacks, ep.buildPromise.isSome)) =
      some ([0], true) ∧
    alookup 0 g4.waiters = some WaiterStatus.pending ∧
    Step cfg2 g4 (Ev.reBuildFailed "s2" "src/b.go") g5 ∧
    (alookup keyG2 g5.entryPointsData).map
        (fun ep => (ep.hasError, ep.pendingRequestCallbacks, ep.needsReBuild)) =
      some (true, [0], REBUILD_PRIORITY.LOW) ∧
    alookup 0 g5.waiters = some WaiterStatus.pending :=
  ⟨reachable_g4, by decide, by decide,
    Step.reBuildFailed g4 "s2" "src/b.go" (by decide), by decide, by decide⟩

/-! Claim C5 counterexample. -/

/-- C5 counterexample: in the reachable state `t2` the entry point is building
with priority `HIGH` and a pending request.  Its build succeeds with no new
input files, so the priority is still `HIGH` after the entry-point update;
the claim says the waiter must then stay queued for the next successful
build, but the reconciliation pass dispatches a follow-up build (resetting
the priority to `OFF`), and the waiter is resolved while that follow-up build
is still in flight. -/
theorem rebuildSucceeded_wakes_despite_priority :
    Reachable cfg1 t2 ∧
    (alookup key1 t2.entryPointsData).map
        (fun ep => (ep.needsReBuild, ep.pendingRequestCallbacks, ep.inputFiles)) =
      some (REBUILD_PRIORITY.HIGH, [0], ["/a/f.ts"]) ∧
    alookup 0 t2.waiters = some WaiterStatus.pending ∧
    Step cfg1 t2 (Ev.reBuildSucceeded "s" "src/h.handler" ["/a/f.ts"]) t3 ∧
    alookup 0 t3.waiters = some WaiterStatus.resolved ∧
    (alookup key1 t3.entryPointsData).map (fun ep => ep.buildPromise.isSome) = some true :=
  ⟨reachable_t2, by decide, by decide,
    Step.reBuildSucceeded t2 "s" "src/h.handler" ["/a/f.ts"] (by decide),
    by decide, by decide⟩

/-! Basic lemmas about the association-list and counting helpers. -/

theorem alookup_updEP_self [DecidableEq α] (key : α) (f : β → β) (l : List (α × β)) :
    alookup key (updEP key f l) = (alookup key l).map f := by
  induction l with
  | nil => rfl
  | cons kv rest ih =>
    by_cases h : kv.1 = key
    · simp [updEP, alookup, h]
    · simp [updEP, alookup, h, ih]

theorem alookup_updEP_ne [DecidableEq α] {key k : α} (h : k ≠ key) (f : β → β)
    (l : List (α × β)) : alookup k (updEP key f l) = alookup k l := by
  induction l with
  | nil => rfl
  | cons kv rest ih =>
    rcases kv with ⟨a, b⟩
    by_cases hk : a = key
    · have h3 : ¬ key = k := fun hc => h hc.symm
      simp [updEP, alookup, hk, h3]
    · simp [updEP, alookup, hk, ih]

theorem updEP_keys [DecidableEq α] (key : α) (f : β → β) (l : List (α × β)) :
    (updEP key f l).map Prod.fst = l.map Prod.fst := by
  induction l with
  | nil => rfl
  | cons kv rest ih =>
    by_cases h : kv.1 = key
    · simp [updEP, h]
    · simp [updEP, h, ih]

theorem alookup_of_mem_nodup [DecidableEq α] {l : List (α × β)} {k : α} {v : β}
    (hnd : (l.map Prod.fst).Nodup) (hm : (k, v) ∈ l) : alookup k l = some v := by
  induction l with
  | nil => exact absurd hm (List.not_mem_nil _)
  | cons kv rest ih =>
    rcases kv with ⟨a, b⟩
    have hnd2 : (¬ a ∈ rest.map Prod.fst) ∧ (rest.map Prod.fst).Nodup := by
      rw [List.map_cons, List.nodup_cons] at hnd
      exact hnd
    rcases List.mem_cons.mp hm with h | h
    · rw [Prod.mk.injEq] at h
      simp [alookup, h.1.symm, h.2]
    · have hk : ¬ a = k := by
        intro he
        exact hnd2.1 (by
          rw [he]
          exact List.mem_map.mpr ⟨(k, v), h, rfl⟩)
      simp only [alookup, hk, if_false]
      exact ih hnd2.2 h

theorem mem_of_alookup [DecidableEq α] {l : List (α × β)} {k : α} {v : β}
    (h : alookup k l = some v) : (k, v) ∈ l := by
  induction l with
  | nil => exact absurd h (by simp [alookup])
  | cons kv rest ih =>
    rcases kv with ⟨a, b⟩
    by_cases hk : a = k
    · simp only [alookup, hk, if_true, Option.some.injEq] at h
      exact List.mem_cons.mpr (Or.inl (by rw [hk, h]))
    · simp only [alookup, hk, if_false] at h
      exact List.mem_cons.mpr (Or.inr (ih h))

theorem countP_updEP_le [DecidableEq α] (p : α × β → Bool) (key : α) (f : β → β)
    (l : List (α × β)) : (updEP key f l).countP p ≤ l.countP p + 1 := by
  induction l with
  | nil => simp [updEP]
  | cons kv rest ih =>
    rcases kv with ⟨a, b⟩
    by_cases h : a = key
    · simp only [updEP, h, if_true, List.countP_cons]
      split <;> split <;> omega
    · simp only [updEP, h, if_false, List.countP_cons]
      split <;> omega

theorem countP_updEP_eq [DecidableEq α] {p : α × β → Bool} {key : α} {f : β → β}
    {l : List (α × β)} {v : β} (hl : alookup key l = some v)
    (hp : p (key, f v) = p (key, v)) : (updEP key f l).countP p = l.countP p := by
  induction l with
  | nil => simp [alookup] at hl
  | cons kv rest ih =>
    rcases kv with ⟨a, b⟩
    by_cases h : a = key
    · simp only [alookup, h, if_true, Option.some.injEq] at hl
      simp only [updEP, h, if_true, List.countP_cons]
      rw [hl, hp]
    · simp only [alookup, h, if_false] at hl
      simp only [updEP, h, if_false, List.countP_cons, ih hl]

theorem countP_updEP_le_of_false [DecidableEq α] {p : α × β → Bool} {key : α} {f : β → β}
    (hp : ∀ v, p (key, f v) = false) (l : List (α × β)) :
    (updEP key f l).countP p ≤ l.countP p := by
  induction l with
  | nil => simp [updEP]
  | cons kv rest ih =>
    rcases kv with ⟨a, b⟩
    by_cases h : a = key
    · simp only [updEP, h, if_true, List.countP_cons]
      rw [hp b]
      simp only [Bool.false_eq_true, if_false]
      cases hq : p (key, b)
      · simp only [Bool.false_eq_true, if_false]
        omega
      · simp only [if_true]
        omega
    · simp only [updEP, h, if_false, List.countP_cons]
      cases hq : p (a, b)
      · simp only [Bool.false_eq_true, if_false]
        omega
      · simp only [if_true]
        omega

theorem chkMsgs_append (l : List String) (m : String) :
    chkMsgs (l ++ [m]) = (chkMsgs l).bind (fun b => chkStep b m) := by
  simp [chkMsgs, List.foldl_append]

/-! The `Evo` relation: what a reconciliation pass can do to the state. -/

theorem startedFrom_startedFrom (ep : EntryPointData) (b b2 : Nat) :
    startedFrom (startedFrom ep b) b2 = startedFrom ep b2 := rfl

theorem evo_refl (s : WatcherState) : Evo s s :=
  { eps := fun _ => Or.inl rfl,
    epsKeys := rfl, waiters := rfl, nextWaiterId := rfl, chk := fun h => h }

theorem epEvo_trans {e1 e2 e3 : List (String × EntryPointData)}
    (h12 : EpEvo e1 e2) (h23 : EpEvo e2 e3) : EpEvo e1 e3 := by
  intro k
  rcases h23 k with h | ⟨ep2, b, hm, hs⟩
  · rw [h]
    exact h12 k
  · rcases h12 k with h2 | ⟨ep1, b1, hm1, hs1⟩
    · rw [h2] at hm
      exact Or.inr ⟨ep2, b, hm, hs⟩
    · rw [hs1] at hm
      have : ep2 = startedFrom ep1 b1 := (Option.some.injEq _ _).mp hm.symm
      rw [this, startedFrom_startedFrom] at hs
      exact Or.inr ⟨ep1, b, hm1, hs⟩

theorem evo_trans {s t u : WatcherState} (h1 : Evo s t) (h2 : Evo t u) : Evo s u :=
  { eps := epEvo_trans h1.eps h2.eps,
    epsKeys := h2.epsKeys.trans h1.epsKeys,
    waiters := h2.waiters.trans h1.waiters,
    nextWaiterId := h2.nextWaiterId.trans h1.nextWaiterId,
    chk := fun h => h2.chk (h1.chk h) }

theorem chkMsgs_busyStatus {s : WatcherState}
    (h : chkMsgs s.msgs = some s.isProcessingLambdaChanges) :
    chkMsgs (updateLambdaCodeBusyStatus s).msgs =
      some (updateLambdaCodeBusyStatus s).isProcessingLambdaChanges := by
  unfold updateLambdaCodeBusyStatus
  cases hf : s.isProcessingLambdaChanges
  · rw [hf] at h
    simp only [Bool.not_false, if_true]
    split
    · rw [hf]
      exact h
    · simp only [chkMsgs_append, h, Option.bind]
      decide
  · rw [hf] at h
    simp only [Bool.not_true, Bool.false_eq_true, if_false]
    split
    · rw [hf]
      exact h
    · split
      · simp only [chkMsgs_append, h, Option.bind]
        decide
      · split
        · rw [hf]
          exact h
        · simp only [chkMsgs_append, h, Option.bind]
          decide

theorem busyStatus_entryPointsData (s : WatcherState) :
    (updateLambdaCodeBusyStatus s).entryPointsData = s.entryPointsData := by
  unfold updateLambdaCodeBusyStatus
  dsimp only
  split
  · split <;> rfl
  · split
    · rfl
    · split
      · rfl
      · split <;> rfl

theorem busyStatus_srcPathsData (s : WatcherState) :
    (updateLambdaCodeBusyStatus s).srcPathsData = s.srcPathsData := by
  unfold updateLambdaCodeBusyStatus
  dsimp only
  split
  · split <;> rfl
  · split
    · rfl
    · split
      · rfl
      · split <;> rfl

theorem busyStatus_waiters (s : WatcherState) :
    (updateLambdaCodeBusyStatus s).waiters = s.waiters := by
  unfold updateLambdaCodeBusyStatus
  dsimp only
  split
  · split <;> rfl
  · split
    · rfl
    · split
      · rfl
      · split <;> rfl

theorem busyStatus_nextWaiterId (s : WatcherState) :
    (updateLambdaCodeBusyStatus s).nextWaiterId = s.nextWaiterId := by
  unfold updateLambdaCodeBusyStatus
  dsimp only
  split
  · split <;> rfl
  · split
    · rfl
    · split
      · rfl
      · split <;> rfl

theorem evo_busyStatus {s u : WatcherState} (h : Evo s u) :
    Evo s (updateLambdaCodeBusyStatus u) :=
  { eps := by rw [busyStatus_entryPointsData]; exact h.eps,
    epsKeys := by rw [busyStatus_entryPointsData]; exact h.epsKeys,
    waiters := by rw [busyStatus_waiters]; exact h.waiters,
    nextWaiterId := by rw [busyStatus_nextWaiterId]; exact h.nextWaiterId,
    chk := fun hc => chkMsgs_busyStatus (h.chk hc) }

theorem evo_onReBuildStarted {s u : WatcherState} (h : Evo s u) (key : String) :
    Evo s (onReBuildStarted u key) := by
  refine
    { eps := ?_,
      epsKeys := by
        simp only [onReBuildStarted, updEP_keys]
        exact h.epsKeys,
      waiters := h.waiters, nextWaiterId := h.nextWaiterId, chk := h.chk }
  intro k
  by_cases hk : k = key
  · rw [hk]
    simp only [onReBuildStarted, alookup_updEP_self]
    rcases h.eps key with h2 | ⟨ep, b, hm, hs⟩
    · rw [h2]
      cases he : alookup key s.entryPointsData
      · exact Or.inl (by simp)
      · exact Or.inr ⟨_, u.nextBuildId, rfl, by simp [startedFrom]⟩
    · rw [hs]
      exact Or.inr ⟨ep, u.nextBuildId, hm, by simp [startedFrom_startedFrom, startedFrom]⟩
  · simp only [onReBuildStarted, alookup_updEP_ne hk]
    exact h.eps k

theorem evo_foldl_onReBuildStarted {s : WatcherState} (l : List String) :
    ∀ u : WatcherState, Evo s u → Evo s (l.foldl (fun t key => onReBuildStarted t key) u) := by
  induction l with
  | nil => exact fun u h => h
  | cons k rest ih =>
    intro u h
    exact ih (onReBuildStarted u k) (evo_onReBuildStarted h k)

theorem evo_runLint {s u : WatcherState} (h : Evo s u) (cfg : Config) (srcPath : String) :
    Evo s (runLint cfg u srcPath).1 := by
  unfold runLint
  split
  · exact h
  · dsimp only
    split
    · exact h
    · exact
        { eps := h.eps, epsKeys := h.epsKeys, waiters := h.waiters,
          nextWaiterId := h.nextWaiterId, chk := h.chk }

theorem evo_runTypeCheck {s u : WatcherState} (h : Evo s u) (cfg : Config)
    (srcPath : String) : Evo s (runTypeCheck cfg u srcPath).1 := by
  unfold runTypeCheck
  split
  · exact h
  · dsimp only
    split
    · exact h
    · split
      · exact h
      · exact
          { eps := h.eps, epsKeys := h.epsKeys, waiters := h.waiters,
            nextWaiterId := h.nextWaiterId, chk := h.chk }

theorem evo_setLintAndTypeCheckStarted {s u : WatcherState} (h : Evo s u)
    (srcPath : String) (lp tp : Option Nat) :
    Evo s (setLintAndTypeCheckStarted u srcPath lp tp) :=
  { eps := h.eps, epsKeys := h.epsKeys, waiters := h.waiters,
    nextWaiterId := h.nextWaiterId, chk := h.chk }

theorem evo_runLintLoop {s : WatcherState} (cfg : Config)
    (upd : WatcherState → WatcherState)
    (hupd : ∀ u : WatcherState, Evo s u → Evo s (upd u)) (l : List String) :
    ∀ u : WatcherState, Evo s u → Evo s (runLintLoop cfg upd l u) := by
  induction l with
  | nil => exact fun u h => h
  | cons srcPath rest ih =>
    intro u h
    unfold runLintLoop
    split
    · exact ih u h
    · split
      · exact ih _ (hupd _ (evo_setLintAndTypeCheckStarted
          (evo_runTypeCheck (evo_runLint h cfg srcPath) cfg srcPath) srcPath _ _))
      · exact ih u h

theorem evo_dispatchPass (cfg : Config) (s : WatcherState) : Evo s (dispatchPass cfg s) :=
  evo_foldl_onReBuildStarted _ _ (evo_foldl_onReBuildStarted _ _ (evo_busyStatus (evo_refl s)))

theorem evo_updateLambdaCodeState (cfg : Config) :
    ∀ (fuel : Nat) (s : WatcherState), Evo s (updateLambdaCodeState cfg fuel s) := by
  intro fuel
  induction fuel with
  | zero => exact fun s => evo_refl s
  | succ fuel ih =>
    intro s
    unfold updateLambdaCodeState
    dsimp only
    split
    · exact evo_dispatchPass cfg s
    · split
      · exact evo_dispatchPass cfg s
      · exact evo_runLintLoop cfg (updateLambdaCodeState cfg fuel)
          (fun u h => evo_trans h (ih u)) _ _ (evo_dispatchPass cfg s)

/-! Characterisation of the classification loop (`gatherBuildData`). -/

theorem goQueueOk_nil (eps : List (String × EntryPointData)) : GoQueueOk eps [] :=
  ⟨[], [], rfl, fun k hk => absurd hk (List.not_mem_nil k), fun k hk =>
    absurd hk (List.not_mem_nil k)⟩

theorem goQueueOk_append_low {eps : List (String × EntryPointData)} {q : List String}
    {k : String} {ep : EntryPointData} (h : GoQueueOk eps q) (hm : (k, ep) ∈ eps)
    (hgo : isGoRuntime ep.runtime = true) (hbp : ep.buildPromise = none)
    (hlow : ep.needsReBuild = REBUILD_PRIORITY.LOW) : GoQueueOk eps (q ++ [k]) := by
  rcases h with ⟨hs, ls, hq, hh, hl⟩
  refine ⟨hs, ls ++ [k], by rw [hq, List.append_assoc], hh, ?_⟩
  intro k2 hk2
  rcases List.mem_append.mp hk2 with h2 | h2
  · exact hl k2 h2
  · rw [List.mem_singleton.mp h2]
    exact ⟨ep, hm, hgo, hbp, hlow⟩

theorem goQueueOk_cons_high {eps : List (String × EntryPointData)} {q : List String}
    {k : String} {ep : EntryPointData} (h : GoQueueOk eps q) (hm : (k, ep) ∈ eps)
    (hgo : isGoRuntime ep.runtime = true) (hbp : ep.buildPromise = none)
    (hhigh : ep.needsReBuild = REBUILD_PRIORITY.HIGH) : GoQueueOk eps (k :: q) := by
  rcases h with ⟨hs, ls, hq, hh, hl⟩
  refine ⟨k :: hs, ls, by rw [hq]; rfl, ?_, hl⟩
  intro k2 hk2
  rcases List.mem_cons.mp hk2 with h2 | h2
  · rw [h2]
    exact ⟨ep, hm, hgo, hbp, hhigh⟩
  · exact hh k2 h2

theorem foldl_gatherStep_spec (eps : List (String × EntryPointData)) :
    ∀ (l : List (String × EntryPointData)) (acc : List String × List String × List String),
      (∀ kv, kv ∈ l → kv ∈ eps) →
      GoQueueOk eps acc.2.1 → NodeQueueOk eps acc.2.2 →
      GoQueueOk eps (l.foldl gatherStep acc).2.1 ∧
      NodeQueueOk eps (l.foldl gatherStep acc).2.2 ∧
      (l.foldl gatherStep acc).1.length = acc.1.length + l.countP goSomeP := by
  intro l
  induction l with
  | nil =>
    intro acc hmem hgo hnode
    simpa using ⟨hgo, hnode⟩
  | cons kv rest ih =>
    intro acc hmem hgo hnode
    rcases kv with ⟨k, ep⟩
    have hmem_head : (k, ep) ∈ eps := hmem (k, ep) (List.mem_cons_self _ _)
    have hmem_rest : ∀ kv2, kv2 ∈ rest → kv2 ∈ eps := fun kv2 h2 =>
      hmem kv2 (List.mem_cons_of_mem _ h2)
    rw [List.foldl_cons, List.countP_cons]
    have hnext :
        GoQueueOk eps (gatherStep acc (k, ep)).2.1 ∧
        NodeQueueOk eps (gatherStep acc (k, ep)).2.2 ∧
        (gatherStep acc (k, ep)).1.length =
          acc.1.length + (if goSomeP (k, ep) then 1 else 0) := by
      cases hr : ep.runtime
      · -- node runtime
        rcases hbp : ep.buildPromise with _ | b
        · cases hz : ep.needsReBuild == 0
          · -- dirty node entry point: appended to the node list
            simp only [gatherStep, goSomeP, isGoRuntime, isNodeRuntime, hr, hbp, hz]
            simp only [Option.isSome_none, Option.isNone_none, Bool.not_false, Bool.true_and,
              Bool.and_true, Bool.false_eq_true, if_false, if_true]
            refine ⟨hgo, ?_, by simp⟩
            intro k2 hk2
            rcases List.mem_append.mp hk2 with h2 | h2
            · exact hnode k2 h2
            · rw [List.mem_singleton.mp h2]
              exact ⟨ep, hmem_head, by simp [isNodeRuntime, hr], hbp, by
                intro hc
                rw [hc] at hz
                exact absurd hz (by simp)⟩
          · -- clean node entry point: untouched
            simp only [gatherStep, goSomeP, isGoRuntime, isNodeRuntime, hr, hbp, hz]
            simp only [Option.isSome_none, Bool.not_true, Bool.and_false, Bool.false_eq_true,
              if_false]
            exact ⟨hgo, hnode, by simp⟩
        · -- node entry point with a build in flight: untouched
          simp only [gatherStep, goSomeP, isGoRuntime, isNodeRuntime, hr, hbp]
          simp only [Option.isSome_some, Option.isNone_some, Bool.and_false, Bool.false_and,
            Bool.false_eq_true, if_false]
          exact ⟨hgo, hnode, by simp⟩
      · -- go runtime
        rcases hbp : ep.buildPromise with _ | b
        · cases hlow : ep.needsReBuild == REBUILD_PRIORITY.LOW
          · cases hhigh : ep.needsReBuild == REBUILD_PRIORITY.HIGH
            · -- go entry point with priority OFF: untouched
              simp only [gatherStep, goSomeP, isGoRuntime, isNodeRuntime, hr, hbp, hlow, hhigh]
              simp only [Option.isSome_none, Bool.and_false, Bool.false_and, Bool.false_eq_true,
                if_false]
              exact ⟨hgo, hnode, by simp⟩
            · -- HIGH priority: unshifted to the front of the queue
              simp only [gatherStep, goSomeP, isGoRuntime, isNodeRuntime, hr, hbp, hlow, hhigh]
              simp only [Option.isSome_none, Bool.and_false, Bool.false_and, Bool.false_eq_true,
                if_false, if_true]
              exact ⟨goQueueOk_cons_high hgo hmem_head (by simp [isGoRuntime, hr]) hbp
                (by exact beq_iff_eq.mp hhigh), hnode, by simp⟩
          · -- LOW priority: pushed to the back of the queue
            simp only [gatherStep, goSomeP, isGoRuntime, isNodeRuntime, hr, hbp, hlow]
            simp only [Option.isSome_none, Bool.and_false, Bool.false_and, Bool.false_eq_true,
              if_false, if_true]
            exact ⟨goQueueOk_append_low hgo hmem_head (by simp [isGoRuntime, hr]) hbp
              (by exact beq_iff_eq.mp hlow), hnode, by simp⟩
        · -- go entry point with a build in flight: counted as building
          simp only [gatherStep, goSomeP, isGoRuntime, isNodeRuntime, hr, hbp]
          simp only [Option.isSome_some, Option.isNone_some, Bool.and_false, Bool.false_and,
            Bool.false_eq_true, if_false, if_true, Bool.true_and]
          exact ⟨hgo, hnode, by simp⟩
      · -- python runtime: untouched
        simp only [gatherStep, goSomeP, isGoRuntime, isNodeRuntime, hr]
        simp only [Bool.and_false, Bool.false_and, Bool.false_eq_true, if_false]
        exact ⟨hgo, hnode, by simp⟩
    rcases ih (gatherStep acc (k, ep)) hmem_rest hnext.1 hnext.2.1 with ⟨hg2, hn2, hl2⟩
    refine ⟨hg2, hn2, ?_⟩
    rw [hl2, hnext.2.2]
    omega

theorem gatherBuildData_spec (eps : List (String × EntryPointData)) :
    GoQueueOk eps (gatherBuildData eps).2.1 ∧
    NodeQueueOk eps (gatherBuildData eps).2.2 ∧
    (gatherBuildData eps).1.length = eps.countP goSomeP := by
  have h := foldl_gatherStep_spec eps eps ([], [], []) (fun kv h2 => h2)
    (goQueueOk_nil eps) (fun k hk => absurd hk (List.not_mem_nil k))
  rcases h with ⟨h1, h2, h3⟩
  exact ⟨h1, h2, by simpa using h3⟩

/-! The go-build concurrency bound through a reconciliation pass. -/

theorem isGo_eq_false_of_isNode {r : Runtime} (h : isNodeRuntime r = true) :
    isGoRuntime r = false := by
  cases r <;> simp [isGoRuntime, isNodeRuntime] at h ⊢

theorem goBuildingCount_def (s : WatcherState) :
    goBuildingCount s = s.entryPointsData.countP goSomeP := rfl

theorem goCount_onReBuildStarted_le (s : WatcherState) (key : String) :
    goBuildingCount (onReBuildStarted s key) ≤ goBuildingCount s + 1 := by
  unfold goBuildingCount onReBuildStarted
  dsimp only
  exact countP_updEP_le _ _ _ _

theorem goCount_foldl_onReBuildStarted_le (l : List String) :
    ∀ s : WatcherState,
      goBuildingCount (l.foldl (fun t key => onReBuildStarted t key) s) ≤
        goBuildingCount s + l.length := by
  induction l with
  | nil => intro s; simp
  | cons k rest ih =>
    intro s
    rw [List.foldl_cons]
    have h1 := ih (onReBuildStarted s k)
    have h2 := goCount_onReBuildStarted_le s k
    simp only [List.length_cons]
    omega

theorem goCount_onReBuildStarted_nonGo {s : WatcherState} {key : String}
    {ep : EntryPointData} (hk : alookup key s.entryPointsData = some ep)
    (hng : isGoRuntime ep.runtime = false) :
    goBuildingCount (onReBuildStarted s key) = goBuildingCount s := by
  unfold goBuildingCount onReBuildStarted
  dsimp only
  exact countP_updEP_eq hk (by simp [goSomeP, hng])

theorem goCount_foldl_node (l : List String) :
    ∀ s : WatcherState,
      (∀ k, k ∈ l →
        ∃ ep, alookup k s.entryPointsData = some ep ∧ isGoRuntime ep.runtime = false) →
      goBuildingCount (l.foldl (fun t key => onReBuildStarted t key) s) =
        goBuildingCount s := by
  induction l with
  | nil => intro s _; rfl
  | cons k rest ih =>
    intro s hmem
    obtain ⟨ep, hk, hng⟩ := hmem k (List.mem_cons_self _ _)
    rw [List.foldl_cons, ih (onReBuildStarted s k) ?_,
      goCount_onReBuildStarted_nonGo hk hng]
    intro k2 hk2
    obtain ⟨ep2, hk2e, hng2⟩ := hmem k2 (List.mem_cons_of_mem _ hk2)
    by_cases he : k2 = k
    · rw [he] at hk2e ⊢
      rw [hk2e] at hk
      refine ⟨startedFrom ep2 s.nextBuildId, ?_, ?_⟩
      · show alookup k (updEP k _ s.entryPointsData) = _
        rw [alookup_updEP_self, hk2e]
        rfl
      · simpa [startedFrom] using hng2
    · refine ⟨ep2, ?_, hng2⟩
      show alookup k2 (updEP k _ s.entryPointsData) = _
      rw [alookup_updEP_ne he]
      exact hk2e

theorem jsSliceTo_length_le (l : List α) (e : Int) (he : 0 ≤ e) :
    (jsSliceTo l e).length ≤ e.toNat := by
  unfold jsSliceTo
  rw [if_pos he]
  rw [List.length_take]
  exact Nat.min_le_left _ _

theorem goCount_dispatchPass (cfg : Config) (s : WatcherState)
    (hnd : (s.entryPointsData.map Prod.fst).Nodup)
    (hc : goBuildingCount s ≤ cfg.builderConcurrency) :
    goBuildingCount (dispatchPass cfg s) ≤ cfg.builderConcurrency := by
  unfold dispatchPass
  dsimp only
  have hbk : (updateLambdaCodeBusyStatus s).entryPointsData = s.entryPointsData :=
    busyStatus_entryPointsData s
  obtain ⟨hgoq, hnodeq, hlen⟩ :=
    gatherBuildData_spec (updateLambdaCodeBusyStatus s).entryPointsData
  have hcb : goBuildingCount (updateLambdaCodeBusyStatus s) = goBuildingCount s := by
    unfold goBuildingCount
    rw [hbk]
  have hlen2 :
      (gatherBuildData (updateLambdaCodeBusyStatus s).entryPointsData).1.length =
        goBuildingCount s := by
    rw [hlen, goBuildingCount_def, hbk]
  have hnodecount :
      goBuildingCount
        ((gatherBuildData (updateLambdaCodeBusyStatus s).entryPointsData).2.2.foldl
          (fun t key => onReBuildStarted t key) (updateLambdaCodeBusyStatus s)) =
        goBuildingCount s := by
    rw [goCount_foldl_node _ _ ?_, hcb]
    intro k hk
    obtain ⟨ep, hm, hnodeRt, _, _⟩ := hnodeq k hk
    exact ⟨ep, alookup_of_mem_nodup (by rw [hbk]; exact hnd) hm,
      isGo_eq_false_of_isNode hnodeRt⟩
  have hrem : (0 : Int) ≤
      (cfg.builderConcurrency : Int) -
        ((gatherBuildData (updateLambdaCodeBusyStatus s).entryPointsData).1.length : Int) := by
    rw [hlen2]
    omega
  have hslice := jsSliceTo_length_le
    (gatherBuildData (updateLambdaCodeBusyStatus s).entryPointsData).2.1
    ((cfg.builderConcurrency : Int) -
      ((gatherBuildData (updateLambdaCodeBusyStatus s).entryPointsData).1.length : Int)) hrem
  have htoNat :
      ((cfg.builderConcurrency : Int) -
        ((gatherBuildData (updateLambdaCodeBusyStatus s).entryPointsData).1.length : Int)).toNat =
        cfg.builderConcurrency - goBuildingCount s := by
    rw [hlen2]
    omega
  have hfinal := goCount_foldl_onReBuildStarted_le
    (jsSliceTo (gatherBuildData (updateLambdaCodeBusyStatus s).entryPointsData).2.1
      ((cfg.builderConcurrency : Int) -
        ((gatherBuildData (updateLambdaCodeBusyStatus s).entryPointsData).1.length : Int)))
    ((gatherBuildData (updateLambdaCodeBusyStatus s).entryPointsData).2.2.foldl
      (fun t key => onReBuildStarted t key) (updateLambdaCodeBusyStatus s))
  rw [hnodecount] at hfinal
  rw [htoNat] at hslice
  omega

theorem runLint_entryPointsData (cfg : Config) (u : WatcherState) (srcPath : String) :
    (runLint cfg u srcPath).1.entryPointsData = u.entryPointsData := by
  unfold runLint
  split
  · rfl
  · dsimp only
    split <;> rfl

theorem runTypeCheck_entryPointsData (cfg : Config) (u : WatcherState) (srcPath : String) :
    (runTypeCheck cfg u srcPath).1.entryPointsData = u.entryPointsData := by
  unfold runTypeCheck
  split
  · rfl
  · dsimp only
    split
    · rfl
    · split <;> rfl

theorem setLintAndTypeCheckStarted_entryPointsData (u : WatcherState) (srcPath : String)
    (lp tp : Option Nat) :
    (setLintAndTypeCheckStarted u srcPath lp tp).entryPointsData = u.entryPointsData := rfl

/-- Any predicate on the entry-point registry that every re-entrant
reconciliation call preserves is preserved by the whole lint loop (the loop
itself never touches the registry). -/
theorem runLintLoop_eps_pres (cfg : Config) (upd : WatcherState → WatcherState)
    (P : List (String × EntryPointData) → Prop)
    (hupd : ∀ u : WatcherState, P u.entryPointsData → P (upd u).entryPointsData)
    (l : List String) :
    ∀ u : WatcherState, P u.entryPointsData → P (runLintLoop cfg upd l u).entryPointsData := by
  induction l with
  | nil => exact fun u h => h
  | cons srcPath rest ih =>
    intro u h
    unfold runLintLoop
    split
    · exact ih u h
    · split
      · refine ih _ (hupd _ ?_)
        rw [setLintAndTypeCheckStarted_entryPointsData, runTypeCheck_entryPointsData,
          runLint_entryPointsData]
        exact h
      · exact ih u h

theorem goCount_updateLambdaCodeState (cfg : Config) :
    ∀ (fuel : Nat) (s : WatcherState),
      (s.entryPointsData.map Prod.fst).Nodup →
      goBuildingCount s ≤ cfg.builderConcurrency →
      goBuildingCount (updateLambdaCodeState cfg fuel s) ≤ cfg.builderConcurrency := by
  intro fuel
  induction fuel with
  | zero => exact fun s _ hc => hc
  | succ fuel ih =>
    intro s hnd hc
    unfold updateLambdaCodeState
    dsimp only
    have hdp := goCount_dispatchPass cfg s hnd hc
    have hdpk : (dispatchPass cfg s).entryPointsData.map Prod.fst =
        s.entryPointsData.map Prod.fst := (evo_dispatchPass cfg s).epsKeys
    split
    · exact hdp
    · split
      · exact hdp
      · have := runLintLoop_eps_pres cfg (updateLambdaCodeState cfg fuel)
          (fun eps => (eps.map Prod.fst).Nodup ∧ eps.countP goSomeP ≤ cfg.builderConcurrency)
          (fun u hu => by
            refine ⟨?_, ?_⟩
            · rw [(evo_updateLambdaCodeState cfg fuel u).epsKeys]
              exact hu.1
            · exact ih u hu.1 hu.2)
          ((dispatchPass cfg s).srcPathsData.map Prod.fst) (dispatchPass cfg s)
          ⟨by rw [hdpk]; exact hnd, hdp⟩
        exact this.2

/-! An already-running build is never touched by a reconciliation pass. -/

theorem foldl_onReBuildStarted_alookup_notmem (l : List String) (key : String) :
    ∀ s : WatcherState, ¬ key ∈ l →
      alookup key (l.foldl (fun t k => onReBuildStarted t k) s).entryPointsData =
        alookup key s.entryPointsData := by
  induction l with
  | nil => intro s _; rfl
  | cons k rest ih =>
    intro s hk
    rw [List.foldl_cons, ih _ (fun h => hk (List.mem_cons_of_mem _ h))]
    show alookup key (updEP k _ s.entryPointsData) = _
    exact alookup_updEP_ne (fun he => hk (by rw [he]; exact List.mem_cons_self _ _)) _ _

theorem jsSliceTo_mem {l : List α} {e : Int} {x : α} (h : x ∈ jsSliceTo l e) : x ∈ l := by
  unfold jsSliceTo at h
  split at h <;> exact List.take_subset _ _ h

theorem running_preserved_dispatchPass (cfg : Config) (s : WatcherState)
    (key : String) (ep : EntryPointData)
    (hnd : (s.entryPointsData.map Prod.fst).Nodup)
    (hk : alookup key s.entryPointsData = some ep)
    (hb : ep.buildPromise.isSome = true) :
    alookup key (dispatchPass cfg s).entryPointsData = some ep := by
  unfold dispatchPass
  dsimp only
  have hbk : (updateLambdaCodeBusyStatus s).entryPointsData = s.entryPointsData :=
    busyStatus_entryPointsData s
  obtain ⟨hgoq, hnodeq, _⟩ :=
    gatherBuildData_spec (updateLambdaCodeBusyStatus s).entryPointsData
  have hndb : ((updateLambdaCodeBusyStatus s).entryPointsData.map Prod.fst).Nodup := by
    rw [hbk]
    exact hnd
  have hkb : alookup key (updateLambdaCodeBusyStatus s).entryPointsData = some ep := by
    rw [hbk]
    exact hk
  have contra : ∀ ep2 : EntryPointData,
      (key, ep2) ∈ (updateLambdaCodeBusyStatus s).entryPointsData →
      ep2.buildPromise = none → False := by
    intro ep2 hm2 hbp2
    have h3 := alookup_of_mem_nodup hndb hm2
    rw [hkb] at h3
    have h4 : ep = ep2 := (Option.some.injEq _ _).mp h3
    rw [h4, hbp2] at hb
    exact absurd hb (by simp)
  have hnotin_node :
      ¬ key ∈ (gatherBuildData (updateLambdaCodeBusyStatus s).entryPointsData).2.2 := by
    intro hmem
    obtain ⟨ep2, hm2, _, hbp2, _⟩ := hnodeq key hmem
    exact contra ep2 hm2 hbp2
  have h2 := foldl_onReBuildStarted_alookup_notmem
    (gatherBuildData (updateLambdaCodeBusyStatus s).entryPointsData).2.2 key
    (updateLambdaCodeBusyStatus s) hnotin_node
  rw [hkb] at h2
  have hnotin_go : ¬ key ∈ jsSliceTo
      (gatherBuildData (updateLambdaCodeBusyStatus s).entryPointsData).2.1
      ((cfg.builderConcurrency : Int) -
        ((gatherBuildData (updateLambdaCodeBusyStatus s).entryPointsData).1.length : Int)) := by
    intro hmem
    have hmem2 := jsSliceTo_mem hmem
    rcases hgoq with ⟨hs, ls, heq, hh, hl⟩
    rw [heq] at hmem2
    rcases List.mem_append.mp hmem2 with h3 | h3
    · obtain ⟨ep2, hm2, _, hbp2, _⟩ := hh key h3
      exact contra ep2 hm2 hbp2
    · obtain ⟨ep2, hm2, _, hbp2, _⟩ := hl key h3
      exact contra ep2 hm2 hbp2
  rw [foldl_onReBuildStarted_alookup_notmem _ key _ hnotin_go]
  exact h2

theorem running_preserved_update (cfg : Config) :
    ∀ (fuel : Nat) (s : WatcherState) (key : String) (ep : EntryPointData),
      (s.entryPointsData.map Prod.fst).Nodup →
      alookup key s.entryPointsData = some ep →
      ep.buildPromise.isSome = true →
      alookup key (updateLambdaCodeState cfg fuel s).entryPointsData = some ep := by
  intro fuel
  induction fuel with
  | zero => exact fun s key ep _ hk _ => hk
  | succ fuel ih =>
    intro s key ep hnd hk hb
    unfold updateLambdaCodeState
    dsimp only
    have hdp := running_preserved_dispatchPass cfg s key ep hnd hk hb
    have hdpk : (dispatchPass cfg s).entryPointsData.map Prod.fst =
        s.entryPointsData.map Prod.fst := (evo_dispatchPass cfg s).epsKeys
    split
    · exact hdp
    · split
      · exact hdp
      · have := runLintLoop_eps_pres cfg (updateLambdaCodeState cfg fuel)
          (fun eps => (eps.map Prod.fst).Nodup ∧ alookup key eps = some ep)
          (fun u hu => by
            refine ⟨?_, ?_⟩
            · rw [(evo_updateLambdaCodeState cfg fuel u).epsKeys]
              exact hu.1
            · exact ih u key ep hu.1 hu.2 hb)
          ((dispatchPass cfg s).srcPathsData.map Prod.fst) (dispatchPass cfg s)
          ⟨by rw [hdpk]; exact hnd, hdp⟩
        exact this.2

/-! Lemmas about the waiter registry (promise resolution). -/

theorem alookup_append_single [DecidableEq α] (x k : α) (v : β) :
    ∀ l : List (α × β),
      alookup x (l ++ [(k, v)]) =
        match alookup x l with
        | some y => some y
        | none => if k = x then some v else none := by
  intro l
  induction l with
  | nil => rfl
  | cons kv rest ih =>
    rcases kv with ⟨a, b⟩
    by_cases h : a = x
    · simp [alookup, h]
    · simp only [List.cons_append, alookup, h, if_false]
      exact ih

theorem alookup_map_keyfix [DecidableEq α] {g : α × β → α × β}
    (hg : ∀ kv, (g kv).1 = kv.1) (k : α) :
    ∀ l : List (α × β), alookup k (l.map g) = (alookup k l).map (fun v => (g (k, v)).2) := by
  intro l
  induction l with
  | nil => rfl
  | cons kv rest ih =>
    rcases kv with ⟨a, b⟩
    rw [List.map_cons]
    by_cases h : a = k
    · have h1 : (g (a, b)).1 = a := hg (a, b)
      have h2 : alookup k (g (a, b) :: rest.map g) = some (g (a, b)).2 := by
        rcases hge : g (a, b) with ⟨c, d⟩
        rw [hge] at h1
        simp only at h1
        simp [alookup, h1, h]
      rw [h2]
      simp only [alookup, h, if_true]
      simp
    · have h1 : (g (a, b)).1 = a := hg (a, b)
      have h2 : alookup k (g (a, b) :: rest.map g) = alookup k (rest.map g) := by
        rcases hge : g (a, b) with ⟨c, d⟩
        rw [hge] at h1
        simp only at h1
        simp [alookup, h1, h]
      rw [h2, ih]
      simp [alookup, h]

theorem rejectWaiter_alookup (w2 : Nat) (msg : String) (s : WatcherState) (w : Nat) :
    alookup w (rejectWaiter w2 msg s).waiters =
      (alookup w s.waiters).map
        (fun st => if w = w2 ∧ st = WaiterStatus.pending then WaiterStatus.rejected msg else st) := by
  unfold rejectWaiter
  dsimp only
  rw [alookup_map_keyfix (fun kv => by split <;> rfl) w s.waiters]
  cases hst : alookup w s.waiters with
  | none => rfl
  | some st =>
    by_cases hc : w = w2 ∧ st = WaiterStatus.pending <;> simp [hc]

theorem resolveWaiter_alookup (w2 : Nat) (s : WatcherState) (w : Nat) :
    alookup w (resolveWaiter w2 s).waiters =
      (alookup w s.waiters).map
        (fun st => if w = w2 ∧ st = WaiterStatus.pending then WaiterStatus.resolved else st) := by
  unfold resolveWaiter
  dsimp only
  rw [alookup_map_keyfix (fun kv => by split <;> rfl) w s.waiters]
  cases hst : alookup w s.waiters with
  | none => rfl
  | some st =>
    by_cases hc : w = w2 ∧ st = WaiterStatus.pending <;> simp [hc]

theorem resolveAll_cons (w0 : Nat) (rest : List Nat) (s : WatcherState) :
    resolveAll (w0 :: rest) s = resolveAll rest (resolveWaiter w0 s) := rfl

theorem rejectAll_cons (w0 : Nat) (rest : List Nat) (msg : String) (s : WatcherState) :
    rejectAll (w0 :: rest) msg s = rejectAll rest msg (rejectWaiter w0 msg s) := rfl

theorem resolveAll_status_cases (ws : List Nat) :
    ∀ (s : WatcherState) (w : Nat),
      alookup w (resolveAll ws s).waiters = alookup w s.waiters ∨
      (alookup w s.waiters = some WaiterStatus.pending ∧
        alookup w (resolveAll ws s).waiters = some WaiterStatus.resolved) := by
  induction ws with
  | nil => exact fun s w => Or.inl rfl
  | cons w0 rest ih =>
    intro s w
    rw [resolveAll_cons]
    have hstep := resolveWaiter_alookup w0 s w
    rcases ih (resolveWaiter w0 s) w with h | h
    · rw [hstep] at h
      by_cases hw : w = w0
      · cases hst : alookup w s.waiters with
        | none =>
          rw [hst] at h
          exact Or.inl (by rw [h]; rfl)
        | some st =>
          rw [hst] at h
          by_cases hp : st = WaiterStatus.pending
          · refine Or.inr ⟨by rw [hp], ?_⟩
            rw [h]
            simp [hw, hp]
          · exact Or.inl (by rw [h]; simp [hp])
      · exact Or.inl (by rw [h]; cases hst : alookup w s.waiters <;> simp [hst, hw])
    · rw [hstep] at h
      rcases h with ⟨h1, h2⟩
      cases hst : alookup w s.waiters with
      | none => rw [hst] at h1; exact absurd h1 (by simp)
      | some st =>
        rw [hst] at h1
        by_cases hcond : w = w0 ∧ st = WaiterStatus.pending
        · exact Or.inr ⟨by rw [hcond.2], h2⟩
        · refine Or.inr ⟨?_, h2⟩
          simp only [Option.map_some'] at h1
          rw [if_neg hcond] at h1
          exact h1

theorem rejectAll_status_cases (ws : List Nat) (msg : String) :
    ∀ (s : WatcherState) (w : Nat),
      alookup w (rejectAll ws msg s).waiters = alookup w s.waiters ∨
      (alookup w s.waiters = some WaiterStatus.pending ∧
        alookup w (rejectAll ws msg s).waiters = some (WaiterStatus.rejected msg)) := by
  induction ws with
  | nil => exact fun s w => Or.inl rfl
  | cons w0 rest ih =>
    intro s w
    rw [rejectAll_cons]
    have hstep := rejectWaiter_alookup w0 msg s w
    rcases ih (rejectWaiter w0 msg s) w with h | h
    · rw [hstep] at h
      by_cases hw : w = w0
      · cases hst : alookup w s.waiters with
        | none =>
          rw [hst] at h
          exact Or.inl (by rw [h]; rfl)
        | some st =>
          rw [hst] at h
          by_cases hp : st = WaiterStatus.pending
          · refine Or.inr ⟨by rw [hp], ?_⟩
            rw [h]
            simp [hw, hp]
          · exact Or.inl (by rw [h]; simp [hp])
      · exact Or.inl (by rw [h]; cases hst : alookup w s.waiters <;> simp [hst, hw])
    · rw [hstep] at h
      rcases h with ⟨h1, h2⟩
      cases hst : alookup w s.waiters with
      | none => rw [hst] at h1; exact absurd h1 (by simp)
      | some st =>
        rw [hst] at h1
        by_cases hcond : w = w0 ∧ st = WaiterStatus.pending
        · exact Or.inr ⟨by rw [hcond.2], h2⟩
        · refine Or.inr ⟨?_, h2⟩
          simp only [Option.map_some'] at h1
          rw [if_neg hcond] at h1
          exact h1

theorem resolveAll_not_pending (ws : List Nat) :
    ∀ (s : WatcherState) (w : Nat), w ∈ ws →
      ¬ alookup w (resolveAll ws s).waiters = some WaiterStatus.pending := by
  induction ws with
  | nil => intro s w hw; exact absurd hw (List.not_mem_nil w)
  | cons w0 rest ih =>
    intro s w hw h
    rw [resolveAll_cons] at h
    rcases List.mem_cons.mp hw with he | he
    · rcases resolveAll_status_cases rest (resolveWaiter w0 s) w with h2 | h2
      · rw [h2] at h
        rw [resolveWaiter_alookup w0 s w] at h
        cases hst : alookup w s.waiters with
        | none => rw [hst] at h; exact absurd h (by simp)
        | some st =>
          rw [hst] at h
          by_cases hp : st = WaiterStatus.pending
          · rw [hp] at h
            simp [he] at h
          · simp only [Option.map_some'] at h
            rw [if_neg (fun hc => hp hc.2)] at h
            exact hp ((Option.some.injEq _ _).mp h)
      · rw [h2.2] at h
        exact absurd h (by simp)
    · exact ih (resolveWaiter w0 s) w he h

theorem rejectAll_pending_to_rejected (ws : List Nat) (msg : String) :
    ∀ (s : WatcherState) (w : Nat), w ∈ ws →
      alookup w s.waiters = some WaiterStatus.pending →
      alookup w (rejectAll ws msg s).waiters = some (WaiterStatus.rejected msg) := by
  induction ws with
  | nil => intro s w hw; exact absurd hw (List.not_mem_nil w)
  | cons w0 rest ih =>
    intro s w hw hp
    rw [rejectAll_cons]
    rcases List.mem_cons.mp hw with he | he
    · have hafter : alookup w (rejectWaiter w0 msg s).waiters =
          some (WaiterStatus.rejected msg) := by
        rw [rejectWaiter_alookup w0 msg s w, hp]
        simp [he]
      rcases rejectAll_status_cases rest msg (rejectWaiter w0 msg s) w with h2 | h2
      · rw [h2]
        exact hafter
      · rw [hafter] at h2
        exact absurd h2.1 (by simp)
    · by_cases he0 : w = w0
      · have hafter : alookup w (rejectWaiter w0 msg s).waiters =
            some (WaiterStatus.rejected msg) := by
          rw [rejectWaiter_alookup w0 msg s w, hp]
          simp [he0]
        rcases rejectAll_status_cases rest msg (rejectWaiter w0 msg s) w with h2 | h2
        · rw [h2]
          exact hafter
        · rw [hafter] at h2
          exact absurd h2.1 (by simp)
      · have hafter : alookup w (rejectWaiter w0 msg s).waiters =
            some WaiterStatus.pending := by
          rw [rejectWaiter_alookup w0 msg s w, hp]
          simp [he0]
        exact ih (rejectWaiter w0 msg s) w he hafter

theorem resolveAll_pending_to_resolved (ws : List Nat) :
    ∀ (s : WatcherState) (w : Nat), w ∈ ws →
      alookup w s.waiters = some WaiterStatus.pending →
      alookup w (resolveAll ws s).waiters = some WaiterStatus.resolved := by
  induction ws with
  | nil => intro s w hw; exact absurd hw (List.not_mem_nil w)
  | cons w0 rest ih =>
    intro s w hw hp
    rw [resolveAll_cons]
    rcases List.mem_cons.mp hw with he | he
    · have hafter : alookup w (resolveWaiter w0 s).waiters =
          some WaiterStatus.resolved := by
        rw [resolveWaiter_alookup w0 s w, hp]
        simp [he]
      rcases resolveAll_status_cases rest (resolveWaiter w0 s) w with h2 | h2
      · rw [h2]
        exact hafter
      · rw [hafter] at h2
        exact absurd h2.1 (by simp)
    · by_cases he0 : w = w0
      · have hafter : alookup w (resolveWaiter w0 s).waiters =
            some WaiterStatus.resolved := by
          rw [resolveWaiter_alookup w0 s w, hp]
          simp [he0]
        rcases resolveAll_status_cases rest (resolveWaiter w0 s) w with h2 | h2
        · rw [h2]
          exact hafter
        · rw [hafter] at h2
          exact absurd h2.1 (by simp)
      · have hafter : alookup w (resolveWaiter w0 s).waiters =
            some WaiterStatus.pending := by
          rw [resolveWaiter_alookup w0 s w, hp]
          simp [he0]
        exact ih (resolveWaiter w0 s) w he hafter

theorem resolveAll_not_pending_mono (ws : List Nat) :
    ∀ (s : WatcherState) (w : Nat),
      ¬ alookup w s.waiters = some WaiterStatus.pending →
      ¬ alookup w (resolveAll ws s).waiters = some WaiterStatus.pending := by
  intro s w h hc
  rcases resolveAll_status_cases ws s w with h2 | h2
  · rw [h2] at hc
    exact h hc
  · exact h h2.1

theorem rejectAll_not_pending_mono (ws : List Nat) (msg : String) :
    ∀ (s : WatcherState) (w : Nat),
      ¬ alookup w s.waiters = some WaiterStatus.pending →
      ¬ alookup w (rejectAll ws msg s).waiters = some WaiterStatus.pending := by
  intro s w h hc
  rcases rejectAll_status_cases ws msg s w with h2 | h2
  · rw [h2] at hc
    exact h hc
  · exact h h2.1

theorem rejectAll_not_pending (ws : List Nat) (msg : String) :
    ∀ (s : WatcherState) (w : Nat), w ∈ ws →
      ¬ alookup w (rejectAll ws msg s).waiters = some WaiterStatus.pending := by
  intro s w hw hc
  cases hst : alookup w s.waiters with
  | none =>
    rcases rejectAll_status_cases ws msg s w with h2 | h2
    · rw [h2, hst] at hc
      exact Option.noConfusion hc
    · rw [hst] at h2
      exact Option.noConfusion h2.1
  | some st =>
    by_cases hp : st = WaiterStatus.pending
    · rw [hp] at hst
      rw [rejectAll_pending_to_rejected ws msg s w hw hst] at hc
      exact WaiterStatus.noConfusion ((Option.some.injEq _ _).mp hc)
    · rcases rejectAll_status_cases ws msg s w with h2 | h2
      · rw [h2, hst] at hc
        exact hp ((Option.some.injEq _ _).mp hc)
      · rw [hst] at h2
        exact hp ((Option.some.injEq _ _).mp h2.1)

theorem resolveAll_entryPointsData (ws : List Nat) :
    ∀ s : WatcherState, (resolveAll ws s).entryPointsData = s.entryPointsData := by
  induction ws with
  | nil => intro s; rfl
  | cons w0 rest ih => intro s; rw [resolveAll_cons]; exact ih (resolveWaiter w0 s)

theorem rejectAll_entryPointsData (ws : List Nat) (msg : String) :
    ∀ s : WatcherState, (rejectAll ws msg s).entryPointsData = s.entryPointsData := by
  induction ws with
  | nil => intro s; rfl
  | cons w0 rest ih => intro s; rw [rejectAll_cons]; exact ih (rejectWaiter w0 msg s)

theorem resolveAll_other_fields (ws : List Nat) :
    ∀ s : WatcherState,
      (resolveAll ws s).nextWaiterId = s.nextWaiterId ∧
      (resolveAll ws s).msgs = s.msgs ∧
      (resolveAll ws s).isProcessingLambdaChanges = s.isProcessingLambdaChanges ∧
      (resolveAll ws s).srcPathsData = s.srcPathsData := by
  induction ws with
  | nil => intro s; exact ⟨rfl, rfl, rfl, rfl⟩
  | cons w0 rest ih => intro s; rw [resolveAll_cons]; exact ih (resolveWaiter w0 s)

theorem rejectAll_other_fields (ws : List Nat) (msg : String) :
    ∀ s : WatcherState,
      (rejectAll ws msg s).nextWaiterId = s.nextWaiterId ∧
      (rejectAll ws msg s).msgs = s.msgs ∧
      (rejectAll ws msg s).isProcessingLambdaChanges = s.isProcessingLambdaChanges ∧
      (rejectAll ws msg s).srcPathsData = s.srcPathsData := by
  induction ws with
  | nil => intro s; exact ⟨rfl, rfl, rfl, rfl⟩
  | cons w0 rest ih => intro s; rw [rejectAll_cons]; exact ih (rejectWaiter w0 msg s)

/-! Preservation of the master invariant. -/

theorem countP_updEP_eq_of_f [DecidableEq α] {p : α × β → Bool} (f : β → β)
    (hp : ∀ (a : α) (b : β), p (a, f b) = p (a, b)) (key : α) (l : List (α × β)) :
    (updEP key f l).countP p = l.countP p := by
  induction l with
  | nil => rfl
  | cons kv rest ih =>
    rcases kv with ⟨a, b⟩
    by_cases h : a = key
    · simp only [updEP, h, if_true, List.countP_cons, hp]
    · simp only [updEP, h, if_false, List.countP_cons, ih]

theorem foldl_updEP_keys (f : EntryPointData → EntryPointData) (l : List String) :
    ∀ eps : List (String × EntryPointData),
      (l.foldl (fun acc k => updEP k f acc) eps).map Prod.fst = eps.map Prod.fst := by
  induction l with
  | nil => intro eps; rfl
  | cons k rest ih =>
    intro eps
    rw [List.foldl_cons, ih, updEP_keys]

theorem foldl_updEP_countP {p : String × EntryPointData → Bool}
    (f : EntryPointData → EntryPointData)
    (hp : ∀ (a : String) (b : EntryPointData), p (a, f b) = p (a, b)) (l : List String) :
    ∀ eps : List (String × EntryPointData),
      (l.foldl (fun acc k => updEP k f acc) eps).countP p = eps.countP p := by
  induction l with
  | nil => intro eps; rfl
  | cons k rest ih =>
    intro eps
    rw [List.foldl_cons, ih, countP_updEP_eq_of_f f hp]

theorem foldl_updEP_alookup_cases (f : EntryPointData → EntryPointData)
    (hidem : ∀ b, f (f b) = f b) (l : List String) :
    ∀ (eps : List (String × EntryPointData)) (k : String),
      alookup k (l.foldl (fun acc k2 => updEP k2 f acc) eps) = alookup k eps ∨
      alookup k (l.foldl (fun acc k2 => updEP k2 f acc) eps) = (alookup k eps).map f := by
  induction l with
  | nil => intro eps k; exact Or.inl rfl
  | cons k0 rest ih =>
    intro eps k
    rw [List.foldl_cons]
    rcases ih (updEP k0 f eps) k with h | h
    · rw [h]
      by_cases he : k = k0
      · rw [he, alookup_updEP_self]
        exact Or.inr rfl
      · rw [alookup_updEP_ne he]
        exact Or.inl rfl
    · rw [h]
      by_cases he : k = k0
      · rw [he, alookup_updEP_self]
        refine Or.inr ?_
        cases hx : alookup k0 eps
        · rfl
        · simp [hidem]
      · rw [alookup_updEP_ne he]
        exact Or.inr rfl

theorem aset_keys_cases [DecidableEq α] (k : α) (v : β) :
    ∀ (l : List (α × β)) (x : α), x ∈ (aset k v l).map Prod.fst →
      x = k ∨ x ∈ l.map Prod.fst := by
  intro l
  induction l with
  | nil =>
    intro x hx
    simp [aset] at hx
    exact Or.inl hx
  | cons kv rest ih =>
    intro x hx
    rcases kv with ⟨a, b⟩
    by_cases h : a = k
    · simp only [aset, h, if_true, List.map_cons] at hx
      rcases List.mem_cons.mp hx with h2 | h2
      · exact Or.inl h2
      · exact Or.inr (by simp; right; simpa using h2)
    · simp only [aset, h, if_false, List.map_cons] at hx
      rcases List.mem_cons.mp hx with h2 | h2
      · exact Or.inr (by simp [h2])
      · rcases ih x h2 with h3 | h3
        · exact Or.inl h3
        · exact Or.inr (by simp; right; simpa using h3)

theorem aset_keys_nodup [DecidableEq α] (k : α) (v : β) :
    ∀ l : List (α × β), (l.map Prod.fst).Nodup → ((aset k v l).map Prod.fst).Nodup := by
  intro l
  induction l with
  | nil =>
    intro _
    simp [aset]
  | cons kv rest ih =>
    intro hnd
    rcases kv with ⟨a, b⟩
    rw [List.map_cons, List.nodup_cons] at hnd
    by_cases h : a = k
    · simp only [aset, h, if_true, List.map_cons, List.nodup_cons]
      refine ⟨?_, hnd.2⟩
      rw [← h]
      exact hnd.1
    · simp only [aset, h, if_false, List.map_cons, List.nodup_cons]
      refine ⟨?_, ih hnd.2⟩
      intro hmem
      rcases aset_keys_cases k v rest a hmem with h2 | h2
      · exact h h2
      · exact hnd.1 h2

theorem aset_forall [DecidableEq α] {P : α × β → Prop} {k : α} {v : β} :
    ∀ l : List (α × β), (∀ kv ∈ l, P kv) → P (k, v) → ∀ kv ∈ aset k v l, P kv := by
  intro l
  induction l with
  | nil =>
    intro _ hv kv hkv
    simp [aset] at hkv
    rw [hkv]
    exact hv
  | cons kv0 rest ih =>
    intro hl hv kv hkv
    rcases kv0 with ⟨a, b⟩
    by_cases h : a = k
    · simp only [aset, h, if_true] at hkv
      rcases List.mem_cons.mp hkv with h2 | h2
      · rw [h2]
        exact hv
      · exact hl kv (List.mem_cons_of_mem _ h2)
    · simp only [aset, h, if_false] at hkv
      rcases List.mem_cons.mp hkv with h2 | h2
      · exact hl kv (by rw [h2]; exact List.mem_cons_self _ _)
      · exact ih (fun kv2 hkv2 => hl kv2 (List.mem_cons_of_mem _ hkv2)) hv kv h2

theorem updEP_forall [DecidableEq α] {P : α × β → Prop} {f : β → β} {key : α} :
    ∀ l : List (α × β), (∀ kv ∈ l, P kv) → (∀ (a : α) (b : β), P (a, b) → P (a, f b)) →
      ∀ kv ∈ updEP key f l, P kv := by
  intro l
  induction l with
  | nil => intro _ _ kv hkv; simp [updEP] at hkv
  | cons kv0 rest ih =>
    intro hl hf kv hkv
    rcases kv0 with ⟨a, b⟩
    by_cases h : a = key
    · simp only [updEP, h, if_true] at hkv
      rcases List.mem_cons.mp hkv with h2 | h2
      · rw [h2]
        exact h ▸ hf a b (hl (a, b) (List.mem_cons_self _ _))
      · exact hl kv (List.mem_cons_of_mem _ h2)
    · simp only [updEP, h, if_false] at hkv
      rcases List.mem_cons.mp hkv with h2 | h2
      · exact hl kv (by rw [h2]; exact List.mem_cons_self _ _)
      · exact ih (fun kv2 hkv2 => hl kv2 (List.mem_cons_of_mem _ hkv2)) hf kv h2

/-- A reconciliation pass preserves the master invariant. -/
theorem inv_updateLambdaCodeState (cfg : Config) (fuel : Nat) (s : WatcherState)
    (hinv : Inv cfg s) : Inv cfg (updateLambdaCodeState cfg fuel s) := by
  obtain ⟨h1, h2, h3, h4, h5⟩ := hinv
  have hevo := evo_updateLambdaCodeState cfg fuel s
  refine ⟨?_, ?_, ?_, ?_, ?_⟩
  · rw [hevo.epsKeys]
    exact h1
  · exact goCount_updateLambdaCodeState cfg fuel s h1 h2
  · exact hevo.chk h3
  · intro key ep hk hbp hnr w hw
    rcases hevo.eps key with hc | ⟨ep0, b, hk0, hs0⟩
    · rw [hc] at hk
      rw [hevo.waiters]
      exact h4 key ep hk hbp hnr w hw
    · rw [hs0] at hk
      have : ep = startedFrom ep0 b := ((Option.some.injEq _ _).mp hk).symm
      rw [this] at hbp
      exact absurd hbp (by simp [startedFrom])
  · intro key ep hk w hw
    rw [hevo.nextWaiterId]
    rcases hevo.eps key with hc | ⟨ep0, b, hk0, hs0⟩
    · rw [hc] at hk
      exact h5 key ep hk w hw
    · rw [hs0] at hk
      have he : ep = startedFrom ep0 b := ((Option.some.injEq _ _).mp hk).symm
      refine h5 key ep0 hk0 w ?_
      rw [he] at hw
      exact hw

theorem goSomeP_set_needsLow (a : String) (b : EntryPointData) :
    goSomeP (a, { b with needsReBuild := REBUILD_PRIORITY.LOW }) = goSomeP (a, b) := rfl

theorem goSomeP_request (w : Nat) (a : String) (b : EntryPointData) :
    goSomeP (a, { b with
      needsReBuild := REBUILD_PRIORITY.HIGH,
      pendingRequestCallbacks := b.pendingRequestCallbacks ++ [w] }) = goSomeP (a, b) := rfl

theorem inv_onFileChange (cfg : Config) (fuel : Nat) (s : WatcherState) (file : String)
    (hinv : Inv cfg s) : Inv cfg (onFileChange cfg fuel s file) := by
  obtain ⟨h1, h2, h3, h4, h5⟩ := hinv
  unfold onFileChange
  dsimp only
  split
  · exact ⟨h1, h2, h3, h4, h5⟩
  · rename_i keys _
    refine inv_updateLambdaCodeState cfg fuel _ ⟨?_, ?_, h3, ?_, ?_⟩
    · show ((keys.foldl (fun eps key => updEP key _ eps) s.entryPointsData).map Prod.fst).Nodup
      rw [foldl_updEP_keys]
      exact h1
    · show (keys.foldl (fun eps key => updEP key _ eps) s.entryPointsData).countP goSomeP ≤ _
      rw [foldl_updEP_countP _ goSomeP_set_needsLow]
      exact h2
    · intro k ep hk hbp hnz w hw
      rcases foldl_updEP_alookup_cases (fun ep => { ep with needsReBuild := REBUILD_PRIORITY.LOW }) (fun b => rfl) keys s.entryPointsData k with hc | hc
      · rw [hc] at hk
        exact h4 k ep hk hbp hnz w hw
      · rw [hc] at hk
        cases hx : alookup k s.entryPointsData with
        | none => rw [hx] at hk; exact Option.noConfusion hk
        | some ep1 =>
          rw [hx] at hk
          have he : ep = { ep1 with needsReBuild := REBUILD_PRIORITY.LOW } :=
            ((Option.some.injEq _ _).mp hk).symm
          rw [he] at hnz
          exact absurd hnz (by simp [REBUILD_PRIORITY.LOW])
    · intro k ep hk w hw
      rcases foldl_updEP_alookup_cases (fun ep => { ep with needsReBuild := REBUILD_PRIORITY.LOW }) (fun b => rfl) keys s.entryPointsData k with hc | hc
      · rw [hc] at hk
        exact h5 k ep hk w hw
      · rw [hc] at hk
        cases hx : alookup k s.entryPointsData with
        | none => rw [hx] at hk; exact Option.noConfusion hk
        | some ep1 =>
          rw [hx] at hk
          have he : ep = { ep1 with needsReBuild := REBUILD_PRIORITY.LOW } :=
            ((Option.some.injEq _ _).mp hk).symm
          refine h5 k ep1 hx w ?_
          rw [he] at hw
          exact hw

theorem inv_getTranspiledHandler (cfg : Config) (s : WatcherState) (sp hd : String)
    (hinv : Inv cfg s) : Inv cfg (getTranspiledHandler s sp hd).2 := by
  obtain ⟨h1, h2, h3, h4, h5⟩ := hinv
  unfold getTranspiledHandler
  dsimp only
  cases hk0 : alookup (buildEntryPointKey sp hd) s.entryPointsData with
  | none => exact ⟨h1, h2, h3, h4, h5⟩
  | some epd =>
    dsimp only
    split
    · dsimp only
      refine ⟨?_, ?_, h3, ?_, ?_⟩
      · show ((requestEnqueue s (buildEntryPointKey sp hd)).entryPointsData.map Prod.fst).Nodup
        unfold requestEnqueue
        dsimp only
        rw [updEP_keys]
        exact h1
      · show goBuildingCount (requestEnqueue s (buildEntryPointKey sp hd)) ≤ _
        rw [goBuildingCount_def]
        unfold requestEnqueue
        dsimp only
        rw [countP_updEP_eq_of_f _ (goSomeP_request s.nextWaiterId)]
        exact goBuildingCount_def s ▸ h2
      · intro k ep hk hbp hnz w hw
        unfold requestEnqueue at hk ⊢
        dsimp only at hk ⊢
        by_cases he : k = buildEntryPointKey sp hd
        · rw [he] at hk
          rw [alookup_updEP_self, hk0] at hk
          have h6 := ((Option.some.injEq _ _).mp hk).symm
          rw [h6] at hnz
          exact absurd hnz (by simp [REBUILD_PRIORITY.HIGH])
        · rw [alookup_updEP_ne he] at hk
          have h7 := h4 k ep hk hbp hnz w hw
          rw [alookup_append_single]
          cases hx : alookup w s.waiters with
          | none =>
            simp only
            split
            · rename_i heq
              intro _
              have hlt := h5 k ep hk w hw
              rw [heq] at hlt
              exact Nat.lt_irrefl _ hlt
            · exact fun hc => Option.noConfusion hc
          | some st =>
            simp only
            rw [← hx]
            exact h7
      · intro k ep hk w hw
        unfold requestEnqueue at hk ⊢
        dsimp only at hk ⊢
        by_cases he : k = buildEntryPointKey sp hd
        · rw [he] at hk
          rw [alookup_updEP_self, hk0] at hk
          have h6 : ep = { epd with
              needsReBuild := REBUILD_PRIORITY.HIGH,
              pendingRequestCallbacks := epd.pendingRequestCallbacks ++ [s.nextWaiterId] } :=
            ((Option.some.injEq _ _).mp hk).symm
          rw [h6] at hw
          simp only at hw
          rcases List.mem_append.mp hw with h7 | h7
          · have := h5 (buildEntryPointKey sp hd) epd hk0 w h7
            omega
          · rw [List.mem_singleton.mp h7]
            omega
        · rw [alookup_updEP_ne he] at hk
          have := h5 k ep hk w hw
          omega
    · exact ⟨h1, h2, h3, h4, h5⟩

theorem inv_onLintDone (cfg : Config) (fuel : Nat) (s : WatcherState) (sp : String)
    (hinv : Inv cfg s) : Inv cfg (onLintDone cfg fuel s sp) := by
  obtain ⟨h1, h2, h3, h4, h5⟩ := hinv
  exact inv_updateLambdaCodeState cfg fuel _ ⟨h1, h2, h3, h4, h5⟩

theorem inv_onTypeCheckDone (cfg : Config) (fuel : Nat) (s : WatcherState) (sp : String)
    (hinv : Inv cfg s) : Inv cfg (onTypeCheckDone cfg fuel s sp) := by
  obtain ⟨h1, h2, h3, h4, h5⟩ := hinv
  exact inv_updateLambdaCodeState cfg fuel _ ⟨h1, h2, h3, h4, h5⟩

theorem reBuildSucceededNodeSync_eps (s : WatcherState) (key sp : String) (d : ArrayDiff) :
    (reBuildSucceededNodeSync s key sp d).entryPointsData = s.entryPointsData := rfl

theorem reBuildSucceededMid_eps (s : WatcherState) (key sp : String)
    (ep0 : EntryPointData) (fs : List String) :
    (reBuildSucceededMid s key sp ep0 fs).entryPointsData =
      updEP key
        (fun ep =>
          { ep with
              inputFiles := fs,
              hasError := false,
              buildPromise := none,
              needsReBuild :=
                if ep0.needsReBuild == 0 && !((arrayDiff ep0.inputFiles fs).add.length == 0)
                then REBUILD_PRIORITY.LOW else ep0.needsReBuild })
        s.entryPointsData := by
  unfold reBuildSucceededMid
  dsimp only
  split
  · rfl
  · rfl

theorem reBuildSucceededMid_fields (s : WatcherState) (key sp : String)
    (ep0 : EntryPointData) (fs : List String) :
    (reBuildSucceededMid s key sp ep0 fs).waiters = s.waiters ∧
    (reBuildSucceededMid s key sp ep0 fs).nextWaiterId = s.nextWaiterId ∧
    (reBuildSucceededMid s key sp ep0 fs).msgs = s.msgs ∧
    (reBuildSucceededMid s key sp ep0 fs).isProcessingLambdaChanges =
      s.isProcessingLambdaChanges := by
  unfold reBuildSucceededMid
  dsimp only
  split
  · exact ⟨rfl, rfl, rfl, rfl⟩
  · exact ⟨rfl, rfl, rfl, rfl⟩

theorem inv_onReBuildSucceeded (cfg : Config) (fuel : Nat) (s : WatcherState)
    (sp hd : String) (fs : List String) (hinv : Inv cfg s) :
    Inv cfg (onReBuildSucceeded cfg fuel s sp hd fs) := by
  obtain ⟨h1, h2, h3, h4, h5⟩ := hinv
  unfold onReBuildSucceeded
  dsimp only
  cases hk0 : alookup (buildEntryPointKey sp hd) s.entryPointsData with
  | none => exact ⟨h1, h2, h3, h4, h5⟩
  | some ep0 =>
    dsimp only
    have hevo := evo_updateLambdaCodeState cfg fuel
      (reBuildSucceededMid s (buildEntryPointKey sp hd) sp ep0 fs)
    have hW : (updateLambdaCodeState cfg fuel
        (reBuildSucceededMid s (buildEntryPointKey sp hd) sp ep0 fs)).waiters = s.waiters := by
      rw [hevo.waiters]
      exact (reBuildSucceededMid_fields s _ sp ep0 fs).1
    have hN : (updateLambdaCodeState cfg fuel
        (reBuildSucceededMid s (buildEntryPointKey sp hd) sp ep0 fs)).nextWaiterId =
        s.nextWaiterId := by
      rw [hevo.nextWaiterId]
      exact (reBuildSucceededMid_fields s _ sp ep0 fs).2.1
    have hK : (updateLambdaCodeState cfg fuel
          (reBuildSucceededMid s (buildEntryPointKey sp hd) sp ep0 fs)).entryPointsData.map
          Prod.fst =
        s.entryPointsData.map Prod.fst := by
      rw [hevo.epsKeys, reBuildSucceededMid_eps, updEP_keys]
    have hChk : chkMsgs (updateLambdaCodeState cfg fuel
          (reBuildSucceededMid s (buildEntryPointKey sp hd) sp ep0 fs)).msgs =
        some (updateLambdaCodeState cfg fuel
          (reBuildSucceededMid s (buildEntryPointKey sp hd) sp ep0 fs)).isProcessingLambdaChanges := by
      refine hevo.chk ?_
      rw [(reBuildSucceededMid_fields s _ sp ep0 fs).2.2.1,
        (reBuildSucceededMid_fields s _ sp ep0 fs).2.2.2]
      exact h3
    have hC : goBuildingCount (updateLambdaCodeState cfg fuel
        (reBuildSucceededMid s (buildEntryPointKey sp hd) sp ep0 fs)) ≤
        cfg.builderConcurrency := by
      refine goCount_updateLambdaCodeState cfg fuel _ ?_ ?_
      · rw [reBuildSucceededMid_eps, updEP_keys]
        exact h1
      · rw [goBuildingCount_def, reBuildSucceededMid_eps]
        refine le_trans (countP_updEP_le_of_false (fun v => by simp [goSomeP]) _) ?_
        exact le_of_eq_of_le (goBuildingCount_def s).symm h2
    have hA : ∀ k ep, alookup k (updateLambdaCodeState cfg fuel
          (reBuildSucceededMid s (buildEntryPointKey sp hd) sp ep0 fs)).entryPointsData =
          some ep →
        ∃ epA, alookup k s.entryPointsData = some epA ∧
          ep.pendingRequestCallbacks = epA.pendingRequestCallbacks := by
      have hmid : ∀ k ep1,
          alookup k (reBuildSucceededMid s (buildEntryPointKey sp hd) sp ep0 fs).entryPointsData =
            some ep1 →
          ∃ epA, alookup k s.entryPointsData = some epA ∧
            ep1.pendingRequestCallbacks = epA.pendingRequestCallbacks := by
        intro k ep1 hk
        rw [reBuildSucceededMid_eps] at hk
        by_cases he : k = buildEntryPointKey sp hd
        · rw [he, alookup_updEP_self] at hk
          cases hx : alookup (buildEntryPointKey sp hd) s.entryPointsData with
          | none => rw [hx] at hk; exact Option.noConfusion hk
          | some epA =>
            rw [hx] at hk
            refine ⟨epA, by rw [he, hx], ?_⟩
            have h6 := ((Option.some.injEq _ _).mp hk).symm
            rw [h6]
        · rw [alookup_updEP_ne he] at hk
          exact ⟨ep1, hk, rfl⟩
      intro k ep hk
      rcases hevo.eps k with hc | ⟨ep1, b, hk1, hs1⟩
      · rw [hc] at hk
        exact hmid k ep hk
      · rw [hs1] at hk
        have h6 : ep = startedFrom ep1 b := ((Option.some.injEq _ _).mp hk).symm
        obtain ⟨epA, hx, hp⟩ := hmid k ep1 hk1
        exact ⟨epA, hx, by rw [h6]; exact hp⟩
    have hB : ∀ k ep, alookup k (updateLambdaCodeState cfg fuel
          (reBuildSucceededMid s (buildEntryPointKey sp hd) sp ep0 fs)).entryPointsData =
          some ep →
        ep.buildPromise = none → k ≠ buildEntryPointKey sp hd →
        alookup k s.entryPointsData = some ep := by
      intro k ep hk hbp he
      rcases hevo.eps k with hc | ⟨ep1, b, hk1, hs1⟩
      · rw [hc, reBuildSucceededMid_eps, alookup_updEP_ne he] at hk
        exact hk
      · rw [hs1] at hk
        have h6 : ep = startedFrom ep1 b := ((Option.some.injEq _ _).mp hk).symm
        rw [h6] at hbp
        exact absurd hbp (by simp [startedFrom])
    cases hk3 : alookup (buildEntryPointKey sp hd) (updateLambdaCodeState cfg fuel
        (reBuildSucceededMid s (buildEntryPointKey sp hd) sp ep0 fs)).entryPointsData with
    | none =>
      refine ⟨by rw [hK]; exact h1, hC, hChk, ?_, ?_⟩
      · intro k ep hk hbp hnz w hw
        by_cases he : k = buildEntryPointKey sp hd
        · rw [he, hk3] at hk
          exact Option.noConfusion hk
        · rw [hW]
          exact h4 k ep (hB k ep hk hbp he) hbp hnz w hw
      · intro k ep hk w hw
        obtain ⟨epA, hx, hp⟩ := hA k ep hk
        rw [hN]
        exact h5 k epA hx w (hp ▸ hw)
    | some ep2 =>
      dsimp only
      split
      · -- priority OFF after the pass: the queued requests are all resolved
        rename_i hz
        refine ⟨?_, ?_, ?_, ?_, ?_⟩
        · rw [resolveAll_entryPointsData, hK]
          exact h1
        · rw [goBuildingCount_def, resolveAll_entryPointsData, ← goBuildingCount_def]
          exact hC
        · rw [(resolveAll_other_fields _ _).2.1, (resolveAll_other_fields _ _).2.2.1]
          exact hChk
        · intro k ep hk hbp hnz w hw
          rw [resolveAll_entryPointsData] at hk
          by_cases he : k = buildEntryPointKey sp hd
          · rw [he, hk3] at hk
            have h6 : ep = ep2 := ((Option.some.injEq _ _).mp hk).symm
            refine resolveAll_not_pending _ _ w ?_
            rw [← h6]
            exact hw
          · refine resolveAll_not_pending_mono _ _ w ?_
            rw [hW]
            exact h4 k ep (hB k ep hk hbp he) hbp hnz w hw
        · intro k ep hk w hw
          rw [resolveAll_entryPointsData] at hk
          obtain ⟨epA, hx, hp⟩ := hA k ep hk
          rw [(resolveAll_other_fields _ _).1, hN]
          exact h5 k epA hx w (hp ▸ hw)
      · -- priority raised again during the build: requests stay queued
        rename_i hz
        refine ⟨by rw [hK]; exact h1, hC, hChk, ?_, ?_⟩
        · intro k ep hk hbp hnz w hw
          by_cases he : k = buildEntryPointKey sp hd
          · rw [he, hk3] at hk
            have h6 : ep = ep2 := ((Option.some.injEq _ _).mp hk).symm
            rw [h6] at hnz
            rw [hnz] at hz
            exact absurd (by decide : (0 == 0) = true) hz
          · rw [hW]
            exact h4 k ep (hB k ep hk hbp he) hbp hnz w hw
        · intro k ep hk w hw
          obtain ⟨epA, hx, hp⟩ := hA k ep hk
          rw [hN]
          exact h5 k epA hx w (hp ▸ hw)

theorem reBuildFailedUpdateEP_eps (s : WatcherState) (key : String) :
    (reBuildFailedUpdateEP s key).entryPointsData =
      updEP key (fun ep => { ep with hasError := true, buildPromise := none })
        s.entryPointsData := rfl

theorem reBuildFailedUpdateEP_fields (s : WatcherState) (key : String) :
    (reBuildFailedUpdateEP s key).waiters = s.waiters ∧
    (reBuildFailedUpdateEP s key).nextWaiterId = s.nextWaiterId ∧
    (reBuildFailedUpdateEP s key).msgs = s.msgs ∧
    (reBuildFailedUpdateEP s key).isProcessingLambdaChanges = s.isProcessingLambdaChanges :=
  ⟨rfl, rfl, rfl, rfl⟩

theorem inv_onReBuildFailed (cfg : Config) (fuel : Nat) (s : WatcherState) (sp hd : String)
    (hinv : Inv cfg s) : Inv cfg (onReBuildFailed cfg fuel s sp hd) := by
  obtain ⟨h1, h2, h3, h4, h5⟩ := hinv
  unfold onReBuildFailed
  dsimp only
  have hevo := evo_updateLambdaCodeState cfg fuel
    (reBuildFailedUpdateEP s (buildEntryPointKey sp hd))
  have hW : (updateLambdaCodeState cfg fuel
      (reBuildFailedUpdateEP s (buildEntryPointKey sp hd))).waiters = s.waiters := by
    rw [hevo.waiters]
    exact (reBuildFailedUpdateEP_fields s _).1
  have hN : (updateLambdaCodeState cfg fuel
      (reBuildFailedUpdateEP s (buildEntryPointKey sp hd))).nextWaiterId = s.nextWaiterId := by
    rw [hevo.nextWaiterId]
    exact (reBuildFailedUpdateEP_fields s _).2.1
  have hK : (updateLambdaCodeState cfg fuel
        (reBuildFailedUpdateEP s (buildEntryPointKey sp hd))).entryPointsData.map Prod.fst =
      s.entryPointsData.map Prod.fst := by
    rw [hevo.epsKeys, reBuildFailedUpdateEP_eps, updEP_keys]
  have hChk : chkMsgs (updateLambdaCodeState cfg fuel
        (reBuildFailedUpdateEP s (buildEntryPointKey sp hd))).msgs =
      some (updateLambdaCodeState cfg fuel
        (reBuildFailedUpdateEP s (buildEntryPointKey sp hd))).isProcessingLambdaChanges := by
    refine hevo.chk ?_
    rw [(reBuildFailedUpdateEP_fields s _).2.2.1, (reBuildFailedUpdateEP_fields s _).2.2.2]
    exact h3
  have hC : goBuildingCount (updateLambdaCodeState cfg fuel
      (reBuildFailedUpdateEP s (buildEntryPointKey sp hd))) ≤ cfg.builderConcurrency := by
    refine goCount_updateLambdaCodeState cfg fuel _ ?_ ?_
    · rw [reBuildFailedUpdateEP_eps, updEP_keys]
      exact h1
    · rw [goBuildingCount_def, reBuildFailedUpdateEP_eps]
      refine le_trans (countP_updEP_le_of_false (fun v => by simp [goSomeP]) _) ?_
      exact le_of_eq_of_le (goBuildingCount_def s).symm h2
  have hA : ∀ k ep, alookup k (updateLambdaCodeState cfg fuel
        (reBuildFailedUpdateEP s (buildEntryPointKey sp hd))).entryPointsData = some ep →
      ∃ ep0, alookup k s.entryPointsData = some ep0 ∧
        ep.pendingRequestCallbacks = ep0.pendingRequestCallbacks := by
    have hmid : ∀ k ep1,
        alookup k (reBuildFailedUpdateEP s (buildEntryPointKey sp hd)).entryPointsData =
          some ep1 →
        ∃ ep0, alookup k s.entryPointsData = some ep0 ∧
          ep1.pendingRequestCallbacks = ep0.pendingRequestCallbacks := by
      intro k ep1 hk
      rw [reBuildFailedUpdateEP_eps] at hk
      by_cases he : k = buildEntryPointKey sp hd
      · rw [he, alookup_updEP_self] at hk
        cases hx : alookup (buildEntryPointKey sp hd) s.entryPointsData with
        | none => rw [hx] at hk; exact Option.noConfusion hk
        | some ep0 =>
          rw [hx] at hk
          refine ⟨ep0, by rw [he, hx], ?_⟩
          have h6 : ep1 = { ep0 with hasError := true, buildPromise := none } :=
            ((Option.some.injEq _ _).mp hk).symm
          rw [h6]
      · rw [alookup_updEP_ne he] at hk
        exact ⟨ep1, hk, rfl⟩
    intro k ep hk
    rcases hevo.eps k with hc | ⟨ep1, b, hk1, hs1⟩
    · rw [hc] at hk
      exact hmid k ep hk
    · rw [hs1] at hk
      have h6 : ep = startedFrom ep1 b := ((Option.some.injEq _ _).mp hk).symm
      obtain ⟨ep0, hx, hp⟩ := hmid k ep1 hk1
      exact ⟨ep0, hx, by rw [h6]; exact hp⟩
  have hB : ∀ k ep, alookup k (updateLambdaCodeState cfg fuel
        (reBuildFailedUpdateEP s (buildEntryPointKey sp hd))).entryPointsData = some ep →
      ep.buildPromise = none → k ≠ buildEntryPointKey sp hd →
      alookup k s.entryPointsData = some ep := by
    intro k ep hk hbp he
    rcases hevo.eps k with hc | ⟨ep1, b, hk1, hs1⟩
    · rw [hc, reBuildFailedUpdateEP_eps, alookup_updEP_ne he] at hk
      exact hk
    · rw [hs1] at hk
      have h6 : ep = startedFrom ep1 b := ((Option.some.injEq _ _).mp hk).symm
      rw [h6] at hbp
      exact absurd hbp (by simp [startedFrom])
  cases hk3 : alookup (buildEntryPointKey sp hd) (updateLambdaCodeState cfg fuel
      (reBuildFailedUpdateEP s (buildEntryPointKey sp hd))).entryPointsData with
  | none =>
    refine ⟨by rw [hK]; exact h1, hC, hChk, ?_, ?_⟩
    · intro k ep hk hbp hnz w hw
      by_cases he : k = buildEntryPointKey sp hd
      · rw [he, hk3] at hk
        exact Option.noConfusion hk
      · rw [hW]
        exact h4 k ep (hB k ep hk hbp he) hbp hnz w hw
    · intro k ep hk w hw
      obtain ⟨ep0, hx, hp⟩ := hA k ep hk
      rw [hN]
      exact h5 k ep0 hx w (hp ▸ hw)
  | some ep2 =>
    dsimp only
    split
    · -- priority OFF after the pass: all pending requests are rejected
      rename_i hz
      refine ⟨?_, ?_, ?_, ?_, ?_⟩
      · rw [rejectAll_entryPointsData, hK]
        exact h1
      · rw [goBuildingCount_def, rejectAll_entryPointsData, ← goBuildingCount_def]
        exact hC
      · rw [(rejectAll_other_fields _ _ _).2.1, (rejectAll_other_fields _ _ _).2.2.1]
        exact hChk
      · intro k ep hk hbp hnz w hw
        rw [rejectAll_entryPointsData] at hk
        by_cases he : k = buildEntryPointKey sp hd
        · rw [he, hk3] at hk
          have h6 : ep = ep2 := ((Option.some.injEq _ _).mp hk).symm
          refine rejectAll_not_pending _ _ _ w ?_
          rw [← h6]
          exact hw
        · refine rejectAll_not_pending_mono _ _ _ w ?_
          rw [hW]
          exact h4 k ep (hB k ep hk hbp he) hbp hnz w hw
      · intro k ep hk w hw
        rw [rejectAll_entryPointsData] at hk
        obtain ⟨ep0, hx, hp⟩ := hA k ep hk
        rw [(rejectAll_other_fields _ _ _).1, hN]
        exact h5 k ep0 hx w (hp ▸ hw)
    · -- priority raised again during the build: requests stay queued
      rename_i hz
      refine ⟨by rw [hK]; exact h1, hC, hChk, ?_, ?_⟩
      · intro k ep hk hbp hnz w hw
        by_cases he : k = buildEntryPointKey sp hd
        · rw [he, hk3] at hk
          have h6 : ep = ep2 := ((Option.some.injEq _ _).mp hk).symm
          rw [h6] at hnz
          rw [hnz] at hz
          exact absurd (by decide : (0 == 0) = true) hz
        · rw [hW]
          exact h4 k ep (hB k ep hk hbp he) hbp hnz w hw
      · intro k ep hk w hw
        obtain ⟨ep0, hx, hp⟩ := hA k ep hk
        rw [hN]
        exact h5 k ep0 hx w (hp ▸ hw)

/-! The invariant holds when `start(false)` completes successfully. -/

theorem onBuildSucceeded_eps (s : WatcherState) (sp hd : String) (tc : Option String)
    (out : OutEntryPoint) (fs : List String) :
    (onBuildSucceeded s sp hd tc out fs).entryPointsData =
      updEP (buildEntryPointKey sp hd)
        (fun ep => { ep with tsconfig := tc, inputFiles := fs, outEntryPoint := some out })
        s.entryPointsData := rfl

theorem onBuildSucceeded_fields (s : WatcherState) (sp hd : String) (tc : Option String)
    (out : OutEntryPoint) (fs : List String) :
    (onBuildSucceeded s sp hd tc out fs).waiters = s.waiters ∧
    (onBuildSucceeded s sp hd tc out fs).nextWaiterId = s.nextWaiterId ∧
    (onBuildSucceeded s sp hd tc out fs).msgs = s.msgs ∧
    (onBuildSucceeded s sp hd tc out fs).isProcessingLambdaChanges =
      s.isProcessingLambdaChanges :=
  ⟨rfl, rfl, rfl, rfl⟩

/-- `Inv` only looks at the registry, the waiter registry, the counter, the
message log and the busy bit; two states agreeing there satisfy it
together. -/
theorem inv_of_fields_eq (cfg : Config) (t u : WatcherState)
    (he : u.entryPointsData = t.entryPointsData)
    (hw : u.waiters = t.waiters)
    (hn : u.nextWaiterId = t.nextWaiterId)
    (hm : u.msgs = t.msgs)
    (hb : u.isProcessingLambdaChanges = t.isProcessingLambdaChanges)
    (h : Inv cfg t) : Inv cfg u := by
  obtain ⟨h1, h2, h3, h4, h5⟩ := h
  refine ⟨by rw [he]; exact h1, ?_, by rw [hm, hb]; exact h3, ?_, ?_⟩
  · rw [goBuildingCount_def, he, ← goBuildingCount_def]
    exact h2
  · intro k ep hk hbp hnz w hw2
    rw [he] at hk
    rw [hw]
    exact h4 k ep hk hbp hnz w hw2
  · intro k ep hk w hw2
    rw [he] at hk
    rw [hn]
    exact h5 k ep hk w hw2

theorem runLint_fields (cfg : Config) (u : WatcherState) (sp : String) :
    (runLint cfg u sp).1.entryPointsData = u.entryPointsData ∧
    (runLint cfg u sp).1.waiters = u.waiters ∧
    (runLint cfg u sp).1.nextWaiterId = u.nextWaiterId ∧
    (runLint cfg u sp).1.msgs = u.msgs ∧
    (runLint cfg u sp).1.isProcessingLambdaChanges = u.isProcessingLambdaChanges := by
  unfold runLint
  split
  · exact ⟨rfl, rfl, rfl, rfl, rfl⟩
  · dsimp only
    split
    · exact ⟨rfl, rfl, rfl, rfl, rfl⟩
    · exact ⟨rfl, rfl, rfl, rfl, rfl⟩

theorem runTypeCheck_fields (cfg : Config) (u : WatcherState) (sp : String) :
    (runTypeCheck cfg u sp).1.entryPointsData = u.entryPointsData ∧
    (runTypeCheck cfg u sp).1.waiters = u.waiters ∧
    (runTypeCheck cfg u sp).1.nextWaiterId = u.nextWaiterId ∧
    (runTypeCheck cfg u sp).1.msgs = u.msgs ∧
    (runTypeCheck cfg u sp).1.isProcessingLambdaChanges = u.isProcessingLambdaChanges := by
  unfold runTypeCheck
  split
  · exact ⟨rfl, rfl, rfl, rfl, rfl⟩
  · dsimp only
    split
    · exact ⟨rfl, rfl, rfl, rfl, rfl⟩
    · split
      · exact ⟨rfl, rfl, rfl, rfl, rfl⟩
      · exact ⟨rfl, rfl, rfl, rfl, rfl⟩

theorem inv_onLintAndTypeCheckStarted (cfg : Config) (fuel : Nat) (t : WatcherState)
    (sp : String) (lp tp : Option Nat) (h : Inv cfg t) :
    Inv cfg (onLintAndTypeCheckStarted cfg fuel t sp lp tp) := by
  unfold onLintAndTypeCheckStarted
  refine inv_updateLambdaCodeState cfg fuel _ ?_
  exact inv_of_fields_eq cfg t _ rfl rfl rfl rfl rfl h

theorem stateInit_eps_ok (cfg : Config) :
    ((stateInit cfg).entryPointsData.map Prod.fst).Nodup ∧
    ∀ kv ∈ (stateInit cfg).entryPointsData,
      kv.2.buildPromise = none ∧ kv.2.pendingRequestCallbacks = [] := by
  have hgen : ∀ (l : List HandlerCfg) (eps : List (String × EntryPointData)),
      (eps.map Prod.fst).Nodup →
      (∀ kv ∈ eps, kv.2.buildPromise = none ∧ kv.2.pendingRequestCallbacks = []) →
      (((l.foldl
            (fun eps hc =>
              aset (buildEntryPointKey hc.srcPath hc.handler)
                { srcPath := hc.srcPath, handler := hc.handler, runtime := hc.runtime }
                eps)
            eps).map Prod.fst).Nodup ∧
        ∀ kv ∈ l.foldl
            (fun eps hc =>
              aset (buildEntryPointKey hc.srcPath hc.handler)
                { srcPath := hc.srcPath, handler := hc.handler, runtime := hc.runtime }
                eps)
            eps, kv.2.buildPromise = none ∧ kv.2.pendingRequestCallbacks = []) := by
    intro l
    induction l with
    | nil => exact fun eps h1 h2 => ⟨h1, h2⟩
    | cons hc rest ih =>
      intro eps h1 h2
      simp only [List.foldl_cons]
      exact ih _ (aset_keys_nodup _ _ _ h1) (aset_forall _ h2 ⟨rfl, rfl⟩)
  refine hgen cfg.lambdaHandlers [] (by simp) ?_
  intro kv hkv
  simp at hkv

theorem initialBuilds_fold_ok :
    ∀ (l : List HandlerCfg) (u : WatcherState),
      (u.entryPointsData.map Prod.fst).Nodup →
      (∀ kv ∈ u.entryPointsData,
        kv.2.buildPromise = none ∧ kv.2.pendingRequestCallbacks = []) →
      (((l.foldl
            (fun t hc =>
              if hc.initBuildOk then
                onBuildSucceeded t hc.srcPath hc.handler hc.tsconfig hc.initOut
                  (if isNodeRuntime hc.runtime then hc.initInputFiles else [])
              else t)
            u).entryPointsData.map Prod.fst).Nodup ∧
        (∀ kv ∈ (l.foldl
            (fun t hc =>
              if hc.initBuildOk then
                onBuildSucceeded t hc.srcPath hc.handler hc.tsconfig hc.initOut
                  (if isNodeRuntime hc.runtime then hc.initInputFiles else [])
              else t)
            u).entryPointsData,
          kv.2.buildPromise = none ∧ kv.2.pendingRequestCallbacks = []) ∧
        (l.foldl
            (fun t hc =>
              if hc.initBuildOk then
                onBuildSucceeded t hc.srcPath hc.handler hc.tsconfig hc.initOut
                  (if isNodeRuntime hc.runtime then hc.initInputFiles else [])
              else t)
            u).waiters = u.waiters ∧
        (l.foldl
            (fun t hc =>
              if hc.initBuildOk then
                onBuildSucceeded t hc.srcPath hc.handler hc.tsconfig hc.initOut
                  (if isNodeRuntime hc.runtime then hc.initInputFiles else [])
              else t)
            u).nextWaiterId = u.nextWaiterId ∧
        (l.foldl
            (fun t hc =>
              if hc.initBuildOk then
                onBuildSucceeded t hc.srcPath hc.handler hc.tsconfig hc.initOut
                  (if isNodeRuntime hc.runtime then hc.initInputFiles else [])
              else t)
            u).msgs = u.msgs ∧
        (l.foldl
            (fun t hc =>
              if hc.initBuildOk then
                onBuildSucceeded t hc.srcPath hc.handler hc.tsconfig hc.initOut
                  (if isNodeRuntime hc.runtime then hc.initInputFiles else [])
              else t)
            u).isProcessingLambdaChanges = u.isProcessingLambdaChanges) := by
  intro l
  induction l with
  | nil => exact fun u h1 h2 => ⟨h1, h2, rfl, rfl, rfl, rfl⟩
  | cons hc rest ih =>
    intro u h1 h2
    simp only [List.foldl_cons]
    by_cases hb : hc.initBuildOk = true
    · rw [if_pos hb]
      have hn2 : ((onBuildSucceeded u hc.srcPath hc.handler hc.tsconfig hc.initOut
            (if isNodeRuntime hc.runtime then hc.initInputFiles else
              [])).entryPointsData.map Prod.fst).Nodup := by
        rw [onBuildSucceeded_eps, updEP_keys]
        exact h1
      have hp2 : ∀ kv ∈ (onBuildSucceeded u hc.srcPath hc.handler hc.tsconfig hc.initOut
            (if isNodeRuntime hc.runtime then hc.initInputFiles else [])).entryPointsData,
          kv.2.buildPromise = none ∧ kv.2.pendingRequestCallbacks = [] := by
        rw [onBuildSucceeded_eps]
        exact updEP_forall _ h2 (fun a b hb2 => hb2)
      obtain ⟨g1, g2, g3, g4, g5, g6⟩ := ih _ hn2 hp2
      refine ⟨g1, g2, ?_, ?_, ?_, ?_⟩
      · rw [g3, (onBuildSucceeded_fields u _ _ _ _ _).1]
      · rw [g4, (onBuildSucceeded_fields u _ _ _ _ _).2.1]
      · rw [g5, (onBuildSucceeded_fields u _ _ _ _ _).2.2.1]
      · rw [g6, (onBuildSucceeded_fields u _ _ _ _ _).2.2.2]
    · rw [if_neg hb]
      exact ih u h1 h2

theorem runInitialBuilds_eq (cfg : Config) (u : WatcherState) :
    runInitialBuilds cfg u =
      cfg.lambdaHandlers.foldl
        (fun t hc =>
          if hc.initBuildOk then
            onBuildSucceeded t hc.srcPath hc.handler hc.tsconfig hc.initOut
              (if isNodeRuntime hc.runtime then hc.initInputFiles else [])
          else t)
        u := rfl

theorem inv_runInitialBuilds_stateInit (cfg : Config) :
    Inv cfg (runInitialBuilds cfg (stateInit cfg)) := by
  obtain ⟨hn0, hp0⟩ := stateInit_eps_ok cfg
  obtain ⟨hn1, hp1, hw1, hni1, hm1, hf1⟩ :=
    initialBuilds_fold_ok cfg.lambdaHandlers (stateInit cfg) hn0 hp0
  rw [runInitialBuilds_eq]
  refine ⟨hn1, ?_, ?_, ?_, ?_⟩
  · rw [goBuildingCount_def]
    have hz : ((cfg.lambdaHandlers.foldl
        (fun t hc =>
          if hc.initBuildOk then
            onBuildSucceeded t hc.srcPath hc.handler hc.tsconfig hc.initOut
              (if isNodeRuntime hc.runtime then hc.initInputFiles else [])
          else t)
        (stateInit cfg)).entryPointsData).countP goSomeP = 0 := by
      refine List.countP_eq_zero.mpr ?_
      intro kv hkv
      simp [goSomeP, (hp1 kv hkv).1]
    rw [hz]
    exact Nat.zero_le _
  · rw [hm1, hf1]
    rfl
  · intro k ep hk hbp hnz w hw2
    rw [hw1]
    intro hcon
    exact Option.noConfusion hcon
  · intro k ep hk w hw2
    have hmem := mem_of_alookup hk
    have := (hp1 (k, ep) hmem).2
    rw [this] at hw2
    simp at hw2

theorem inv_start (cfg : Config) (s : WatcherState) (b : Bool)
    (h : startModel cfg false = Except.ok (s, b)) : Inv cfg s := by
  unfold startModel at h
  dsimp only at h
  split at h
  · exact Except.noConfusion h
  · split at h
    · rename_i hft
      exact absurd hft (by decide)
    · split at h
      · exact Except.noConfusion h
      · have hfold : ∀ (l : List String) (u : WatcherState), Inv cfg u →
            Inv cfg (l.foldl
              (fun t srcPath =>
                let r1 := runLint cfg t srcPath
                let r2 := runTypeCheck cfg r1.1 srcPath
                onLintAndTypeCheckStarted cfg (defaultFuel r2.1) r2.1 srcPath r1.2 r2.2)
              u) := by
          intro l
          induction l with
          | nil => exact fun u hu => hu
          | cons sp rest ih =>
            intro u hu
            simp only [List.foldl_cons]
            refine ih _ ?_
            dsimp only
            refine inv_onLintAndTypeCheckStarted cfg _ _ sp _ _ ?_
            have hL := runLint_fields cfg u sp
            have hT := runTypeCheck_fields cfg (runLint cfg u sp).1 sp
            refine inv_of_fields_eq cfg u _ ?_ ?_ ?_ ?_ ?_ hu
            · rw [hT.1, hL.1]
            · rw [hT.2.1, hL.2.1]
            · rw [hT.2.2.1, hL.2.2.1]
            · rw [hT.2.2.2.1, hL.2.2.2.1]
            · rw [hT.2.2.2.2, hL.2.2.2.2]
        have h2 := (Except.ok.injEq _ _).mp h
        have h3 := (Prod.mk.injEq _ _ _ _).mp h2
        rw [← h3.1]
        exact hfold _ _ (inv_runInitialBuilds_stateInit cfg)

/-! Helper lemmas for the per-claim theorems. -/

theorem alookup_updEP_mem [DecidableEq α] (f : β → β) :
    ∀ {l : List (α × β)} {k : α} {v : β},
      alookup k l = some v → (k, f v) ∈ updEP k f l := by
  intro l
  induction l with
  | nil => intro k v h; exact absurd h (by simp [alookup])
  | cons kv rest ih =>
    intro k v h
    rcases kv with ⟨a, b⟩
    by_cases ha : a = k
    · simp only [alookup, if_pos ha] at h
      have hv : b = v := (Option.some.injEq _ _).mp h
      simp only [updEP, ha, if_pos rfl]
      rw [← ha, ← hv]
      exact List.mem_cons_self _ _
    · simp only [alookup, if_neg ha] at h
      simp only [updEP, if_neg (fun hc : a = k => ha hc)]
      exact List.mem_cons_of_mem _ (ih h)

theorem updEP_exists_mem [DecidableEq α] (P : β → Prop) (key : α) (f : β → β)
    (hf : ∀ b, P b → P (f b)) :
    ∀ (l : List (α × β)) (k : α) (v : β), (k, v) ∈ l → P v →
      ∃ v', (k, v') ∈ updEP key f l ∧ P v' := by
  intro l
  induction l with
  | nil => intro k v hm; exact absurd hm (List.not_mem_nil _)
  | cons kv rest ih =>
    intro k v hm hP
    rcases kv with ⟨a, b⟩
    by_cases ha : a = key
    · rcases List.mem_cons.mp hm with he | hm2
      · have h1 : k = a := congrArg Prod.fst he
        have h2 : v = b := congrArg Prod.snd he
        refine ⟨f b, ?_, hf b (h2 ▸ hP)⟩
        simp only [updEP, if_pos ha]
        rw [h1]
        exact List.mem_cons_self _ _
      · refine ⟨v, ?_, hP⟩
        simp only [updEP, if_pos ha]
        exact List.mem_cons_of_mem _ hm2
    · rcases List.mem_cons.mp hm with he | hm2
      · refine ⟨v, ?_, hP⟩
        simp only [updEP, if_neg ha]
        rw [he]
        exact List.mem_cons_self _ _
      · obtain ⟨v', hm', hP'⟩ := ih k v hm2 hP
        refine ⟨v', ?_, hP'⟩
        simp only [updEP, if_neg ha]
        exact List.mem_cons_of_mem _ hm'

theorem onReBuildStarted_eps (s : WatcherState) (key : String) :
    (onReBuildStarted s key).entryPointsData =
      updEP key
        (fun ep =>
          { ep with needsReBuild := REBUILD_PRIORITY.OFF, buildPromise := some s.nextBuildId })
        s.entryPointsData := rfl

theorem onReBuildStarted_srcPathsData (s : WatcherState) (key : String) :
    (onReBuildStarted s key).srcPathsData = s.srcPathsData := rfl

theorem foldl_onReBuildStarted_srcPathsData (l : List String) :
    ∀ u : WatcherState,
      (l.foldl (fun t key => onReBuildStarted t key) u).srcPathsData = u.srcPathsData := by
  induction l with
  | nil => intro u; rfl
  | cons key rest ih =>
    intro u
    simp only [List.foldl_cons]
    rw [ih (onReBuildStarted u key), onReBuildStarted_srcPathsData]

theorem foldl_onReBuildStarted_exists_hasError (l : List String) :
    ∀ (u : WatcherState) (k : String) (v : EntryPointData),
      (k, v) ∈ u.entryPointsData → v.hasError = true →
      ∃ v', (k, v') ∈ (l.foldl (fun t key => onReBuildStarted t key) u).entryPointsData ∧
        v'.hasError = true := by
  induction l with
  | nil => intro u k v hm hv; exact ⟨v, hm, hv⟩
  | cons key rest ih =>
    intro u k v hm hv
    simp only [List.foldl_cons]
    obtain ⟨v', hm', hv'⟩ :=
      updEP_exists_mem (fun b => b.hasError = true) key
        (fun ep =>
          { ep with needsReBuild := REBUILD_PRIORITY.OFF, buildPromise := some u.nextBuildId })
        (fun b hb => hb) u.entryPointsData k v hm hv
    exact ih (onReBuildStarted u key) k v' (by rw [onReBuildStarted_eps]; exact hm') hv'

theorem dispatchPass_srcPathsData (cfg : Config) (u : WatcherState) :
    (dispatchPass cfg u).srcPathsData = u.srcPathsData := by
  unfold dispatchPass
  dsimp only
  rw [foldl_onReBuildStarted_srcPathsData, foldl_onReBuildStarted_srcPathsData,
    busyStatus_srcPathsData]

theorem dispatchPass_hasError_any (cfg : Config) (u : WatcherState)
    (h : u.entryPointsData.any (fun kv => kv.2.hasError) = true) :
    (dispatchPass cfg u).entryPointsData.any (fun kv => kv.2.hasError) = true := by
  obtain ⟨kv, hm, hkv⟩ := List.any_eq_true.mp h
  rcases kv with ⟨k, v⟩
  unfold dispatchPass
  dsimp only
  have hm1 : (k, v) ∈ (updateLambdaCodeBusyStatus u).entryPointsData := by
    rw [busyStatus_entryPointsData]
    exact hm
  obtain ⟨v2, hm2, hv2⟩ :=
    foldl_onReBuildStarted_exists_hasError _ (updateLambdaCodeBusyStatus u) k v hm1 hkv
  obtain ⟨v3, hm3, hv3⟩ :=
    foldl_onReBuildStarted_exists_hasError _ _ k v2 hm2 hv2
  exact List.any_eq_true.mpr ⟨(k, v3), hm3, hv3⟩

/-- After a failure is recorded, a reconciliation pass never reaches the
lint/type-check loop (the `hasError` early return fires unless a build is
still in flight), so `srcPathsData` — and with it every `needsReCheck` flag —
is left untouched. -/
theorem update_srcPaths_of_hasError (cfg : Config) (fuel : Nat) (u : WatcherState)
    (h : u.entryPointsData.any (fun kv => kv.2.hasError) = true) :
    (updateLambdaCodeState cfg fuel u).srcPathsData = u.srcPathsData := by
  cases fuel with
  | zero => rfl
  | succ fuel =>
    unfold updateLambdaCodeState
    dsimp only
    have hd1 := dispatchPass_srcPathsData cfg u
    have hd2 := dispatchPass_hasError_any cfg u h
    split
    · exact hd1
    · exact hd1

theorem requestEnqueue_waiters (s : WatcherState) (key : String) :
    (requestEnqueue s key).waiters =
      s.waiters ++ [(s.nextWaiterId, WaiterStatus.pending)] := rfl

theorem onFileChange_waiters (cfg : Config) (fuel : Nat) (s : WatcherState) (file : String) :
    (onFileChange cfg fuel s file).waiters = s.waiters := by
  unfold onFileChange
  dsimp only
  split
  · rfl
  · rw [(evo_updateLambdaCodeState cfg fuel _).waiters]

theorem onLintDone_waiters (cfg : Config) (fuel : Nat) (s : WatcherState) (sp : String) :
    (onLintDone cfg fuel s sp).waiters = s.waiters := by
  unfold onLintDone
  dsimp only
  rw [(evo_updateLambdaCodeState cfg fuel _).waiters]

theorem onTypeCheckDone_waiters (cfg : Config) (fuel : Nat) (s : WatcherState) (sp : String) :
    (onTypeCheckDone cfg fuel s sp).waiters = s.waiters := by
  unfold onTypeCheckDone
  dsimp only
  rw [(evo_updateLambdaCodeState cfg fuel _).waiters]

theorem getTranspiledHandler_waiters_lookup (s : WatcherState) (sp hd : String) (w : Nat)
    (v : WaiterStatus) (h : alookup w s.waiters = some v) :
    alookup w (getTranspiledHandler s sp hd).2.waiters = some v := by
  unfold getTranspiledHandler
  dsimp only
  split
  · exact h
  · split
    · rw [requestEnqueue_waiters, alookup_append_single, h]
    · exact h

/-- A waiter that is still pending stays pending across every event except a
build outcome for some entry point: only `onReBuildSucceeded` and
`onReBuildFailed` settle promises. -/
theorem step_waiter_pending_preserved (cfg : Config) {u t : WatcherState} {e : Ev} (w : Nat)
    (hstep : Step cfg u e t)
    (h1 : ∀ sp hd fs, e ≠ Ev.reBuildSucceeded sp hd fs)
    (h2 : ∀ sp hd, e ≠ Ev.reBuildFailed sp hd)
    (hp : alookup w u.waiters = some WaiterStatus.pending) :
    alookup w t.waiters = some WaiterStatus.pending := by
  cases hstep with
  | fileChange file => rw [onFileChange_waiters]; exact hp
  | request sp hd hk => exact getTranspiledHandler_waiters_lookup u sp hd w _ hp
  | reBuildSucceeded sp hd fs hb => exact absurd rfl (h1 sp hd fs)
  | reBuildFailed sp hd hb => exact absurd rfl (h2 sp hd)
  | lintDone sp h3 => rw [onLintDone_waiters]; exact hp
  | typeCheckDone sp h3 => rw [onTypeCheckDone_waiters]; exact hp

/-- What a reconciliation pass can do to one registry record: leave it alone,
or dispatch it (clearing the priority to `OFF`). -/
theorem evo_needs_cases {u t : WatcherState} (h : Evo u t) (k : String)
    (ep ep' : EntryPointData) (hk : alookup k u.entryPointsData = some ep)
    (hk2 : alookup k t.entryPointsData = some ep') :
    ep' = ep ∨
    (ep'.needsReBuild = REBUILD_PRIORITY.OFF ∧ ep'.buildPromise.isSome = true ∧
      ep'.hasError = ep.hasError ∧ ep'.inputFiles = ep.inputFiles ∧
      ep'.pendingRequestCallbacks = ep.pendingRequestCallbacks) := by
  rcases h.eps k with hc | ⟨ep1, b, hk1, hs1⟩
  · rw [hc, hk] at hk2
    exact Or.inl ((Option.some.injEq _ _).mp hk2).symm
  · rw [hk1] at hk
    have he1 : ep1 = ep := (Option.some.injEq _ _).mp hk
    rw [hs1] at hk2
    have he2 : ep' = startedFrom ep1 b := ((Option.some.injEq _ _).mp hk2).symm
    rw [he2, he1]
    exact Or.inr ⟨rfl, rfl, rfl, rfl, rfl⟩

theorem getTranspiledHandler_needs_cases (s : WatcherState) (sp hd : String) (k : String)
    (ep ep' : EntryPointData) (hk : alookup k s.entryPointsData = some ep)
    (hk2 : alookup k (getTranspiledHandler s sp hd).2.entryPointsData = some ep') :
    ep' = ep ∨ ep'.needsReBuild = REBUILD_PRIORITY.HIGH := by
  unfold getTranspiledHandler at hk2
  dsimp only at hk2
  revert hk2
  split
  · intro hk2
    rw [hk] at hk2
    exact Or.inl ((Option.some.injEq _ _).mp hk2).symm
  · intro hk2
    split at hk2
    · unfold requestEnqueue at hk2
      dsimp only at hk2
      by_cases he : k = buildEntryPointKey sp hd
      · rw [he, alookup_updEP_self] at hk2
        cases hx : alookup (buildEntryPointKey sp hd) s.entryPointsData with
        | none => rw [hx] at hk2; exact Option.noConfusion hk2
        | some epx =>
          rw [hx] at hk2
          have h6 := ((Option.some.injEq _ _).mp hk2).symm
          rw [h6]
          exact Or.inr rfl
      · rw [alookup_updEP_ne he] at hk2
        rw [hk] at hk2
        exact Or.inl ((Option.some.injEq _ _).mp hk2).symm
    · rw [hk] at hk2
      exact Or.inl ((Option.some.injEq _ _).mp hk2).symm

/-- The terminal shape of `onReBuildSucceeded`: after the reconciliation pass
it either leaves the waiters alone (and the registry record, if any, has a
non-`OFF` priority) or resolves the pending requests of the record, whose
priority is `OFF`. -/
theorem onReBuildSucceeded_shape (cfg : Config) (fuel : Nat) (s : WatcherState)
    (sp hd : String) (fs : List String) (ep : EntryPointData)
    (hk : alookup (buildEntryPointKey sp hd) s.entryPointsData = some ep) :
    (onReBuildSucceeded cfg fuel s sp hd fs =
        updateLambdaCodeState cfg fuel
          (reBuildSucceededMid s (buildEntryPointKey sp hd) sp ep fs) ∧
      ∀ ep2, alookup (buildEntryPointKey sp hd)
          (updateLambdaCodeState cfg fuel
            (reBuildSucceededMid s (buildEntryPointKey sp hd) sp ep fs)).entryPointsData =
          some ep2 → (ep2.needsReBuild == 0) = false) ∨
    (∃ ep2, alookup (buildEntryPointKey sp hd)
        (updateLambdaCodeState cfg fuel
          (reBuildSucceededMid s (buildEntryPointKey sp hd) sp ep fs)).entryPointsData =
        some ep2 ∧ (ep2.needsReBuild == 0) = true ∧
      onReBuildSucceeded cfg fuel s sp hd fs =
        resolveAll ep2.pendingRequestCallbacks
          (updateLambdaCodeState cfg fuel
            (reBuildSucceededMid s (buildEntryPointKey sp hd) sp ep fs))) := by
  cases hk3 : alookup (buildEntryPointKey sp hd)
      (updateLambdaCodeState cfg fuel
        (reBuildSucceededMid s (buildEntryPointKey sp hd) sp ep fs)).entryPointsData with
  | none =>
    refine Or.inl ⟨?_, ?_⟩
    · unfold onReBuildSucceeded
      simp only [hk]
      simp only [hk3]
    · intro ep2 h2
      exact Option.noConfusion h2
  | some ep2 =>
    cases hz : ep2.needsReBuild == 0 with
    | false =>
      refine Or.inl ⟨?_, ?_⟩
      · unfold onReBuildSucceeded
        simp only [hk]
        simp only [hk3, hz, Bool.false_eq_true, if_false]
      · intro ep3 h3
        have h4 : ep2 = ep3 := (Option.some.injEq _ _).mp h3
        rw [← h4]
        exact hz
    | true =>
      refine Or.inr ⟨ep2, rfl, hz, ?_⟩
      unfold onReBuildSucceeded
      simp only [hk]
      simp only [hk3, hz, if_true]

/-- The terminal shape of `onReBuildFailed`, mirroring
`onReBuildSucceeded_shape` with rejection instead of resolution. -/
theorem onReBuildFailed_shape (cfg : Config) (fuel : Nat) (s : WatcherState)
    (sp hd : String) :
    (onReBuildFailed cfg fuel s sp hd =
        updateLambdaCodeState cfg fuel
          (reBuildFailedUpdateEP s (buildEntryPointKey sp hd)) ∧
      ∀ ep2, alookup (buildEntryPointKey sp hd)
          (updateLambdaCodeState cfg fuel
            (reBuildFailedUpdateEP s (buildEntryPointKey sp hd))).entryPointsData =
          some ep2 → (ep2.needsReBuild == 0) = false) ∨
    (∃ ep2, alookup (buildEntryPointKey sp hd)
        (updateLambdaCodeState cfg fuel
          (reBuildFailedUpdateEP s (buildEntryPointKey sp hd))).entryPointsData =
        some ep2 ∧ (ep2.needsReBuild == 0) = true ∧
      onReBuildFailed cfg fuel s sp hd =
        rejectAll ep2.pendingRequestCallbacks (failRejectMsg sp hd)
          (updateLambdaCodeState cfg fuel
            (reBuildFailedUpdateEP s (buildEntryPointKey sp hd)))) := by
  cases hk3 : alookup (buildEntryPointKey sp hd)
      (updateLambdaCodeState cfg fuel
        (reBuildFailedUpdateEP s (buildEntryPointKey sp hd))).entryPointsData with
  | none =>
    refine Or.inl ⟨?_, ?_⟩
    · unfold onReBuildFailed
      simp only [hk3]
    · intro ep2 h2
      exact Option.noConfusion h2
  | some ep2 =>
    cases hz : ep2.needsReBuild == 0 with
    | false =>
      refine Or.inl ⟨?_, ?_⟩
      · unfold onReBuildFailed
        simp only [hk3, hz, Bool.false_eq_true, if_false]
      · intro ep3 h3
        have h4 : ep2 = ep3 := (Option.some.injEq _ _).mp h3
        rw [← h4]
        exact hz
    | true =>
      refine Or.inr ⟨ep2, rfl, hz, ?_⟩
      unfold onReBuildFailed
      simp only [hk3, hz, if_true]

theorem onReBuildSucceeded_needs_cases (cfg : Config) (fuel : Nat) (s : WatcherState)
    (sp hd : String) (fs : List String) (k : String) (ep ep' : EntryPointData)
    (hk : alookup k s.entryPointsData = some ep)
    (hp : ep.needsReBuild = REBUILD_PRIORITY.HIGH)
    (hk2 : alookup k (onReBuildSucceeded cfg fuel s sp hd fs).entryPointsData = some ep') :
    ep'.needsReBuild = REBUILD_PRIORITY.HIGH ∨ ep'.needsReBuild = REBUILD_PRIORITY.OFF := by
  cases hk0 : alookup (buildEntryPointKey sp hd) s.entryPointsData with
  | none =>
    have ht : onReBuildSucceeded cfg fuel s sp hd fs = s := by
      unfold onReBuildSucceeded
      simp only [hk0]
    rw [ht, hk] at hk2
    have h6 : ep' = ep := ((Option.some.injEq _ _).mp hk2).symm
    rw [h6]
    exact Or.inl hp
  | some ep0 =>
    have hteps : (onReBuildSucceeded cfg fuel s sp hd fs).entryPointsData =
        (updateLambdaCodeState cfg fuel
          (reBuildSucceededMid s (buildEntryPointKey sp hd) sp ep0 fs)).entryPointsData := by
      rcases onReBuildSucceeded_shape cfg fuel s sp hd fs ep0 hk0 with ⟨ht, _⟩ | ⟨ep2, _, _, ht⟩
      · rw [ht]
      · rw [ht, resolveAll_entryPointsData]
    rw [hteps] at hk2
    have hmid : ∃ epm, alookup k
        (reBuildSucceededMid s (buildEntryPointKey sp hd) sp ep0 fs).entryPointsData =
          some epm ∧ epm.needsReBuild = REBUILD_PRIORITY.HIGH := by
      by_cases he : k = buildEntryPointKey sp hd
      · have hepeq : ep0 = ep := by
          rw [he] at hk
          rw [hk] at hk0
          exact ((Option.some.injEq _ _).mp hk0).symm
        refine ⟨{ ep0 with
                    inputFiles := fs,
                    hasError := false,
                    buildPromise := none,
                    needsReBuild :=
                      if ep0.needsReBuild == 0 &&
                          !((arrayDiff ep0.inputFiles fs).add.length == 0)
                      then REBUILD_PRIORITY.LOW else ep0.needsReBuild }, ?_, ?_⟩
        · rw [he, reBuildSucceededMid_eps, alookup_updEP_self, hk0]
          rfl
        · show (if ep0.needsReBuild == 0 && !((arrayDiff ep0.inputFiles fs).add.length == 0)
              then REBUILD_PRIORITY.LOW else ep0.needsReBuild) = REBUILD_PRIORITY.HIGH
          rw [hepeq, hp, (by decide : (REBUILD_PRIORITY.HIGH == 0) = false), Bool.false_and]
          rfl
      · refine ⟨ep, ?_, hp⟩
        rw [reBuildSucceededMid_eps, alookup_updEP_ne he]
        exact hk
    obtain ⟨epm, hm, hmH⟩ := hmid
    rcases evo_needs_cases (evo_updateLambdaCodeState cfg fuel _) k epm ep' hm hk2 with
      hceq | ⟨hoff, _⟩
    · rw [hceq]
      exact Or.inl hmH
    · exact Or.inr hoff

theorem onReBuildFailed_needs_cases (cfg : Config) (fuel : Nat) (s : WatcherState)
    (sp hd : String) (k : String) (ep ep' : EntryPointData)
    (hk : alookup k s.entryPointsData = some ep)
    (hp : ep.needsReBuild = REBUILD_PRIORITY.HIGH)
    (hk2 : alookup k (onReBuildFailed cfg fuel s sp hd).entryPointsData = some ep') :
    ep'.needsReBuild = REBUILD_PRIORITY.HIGH ∨ ep'.needsReBuild = REBUILD_PRIORITY.OFF := by
  have hteps : (onReBuildFailed cfg fuel s sp hd).entryPointsData =
      (updateLambdaCodeState cfg fuel
        (reBuildFailedUpdateEP s (buildEntryPointKey sp hd))).entryPointsData := by
    rcases onReBuildFailed_shape cfg fuel s sp hd with ⟨ht, _⟩ | ⟨ep2, _, _, ht⟩
    · rw [ht]
    · rw [ht, rejectAll_entryPointsData]
  rw [hteps] at hk2
  have hmid : ∃ epm, alookup k
      (reBuildFailedUpdateEP s (buildEntryPointKey sp hd)).entryPointsData = some epm ∧
      epm.needsReBuild = REBUILD_PRIORITY.HIGH := by
    by_cases he : k = buildEntryPointKey sp hd
    · refine ⟨{ ep with hasError := true, buildPromise := none }, ?_, hp⟩
      rw [he] at hk
      rw [reBuildFailedUpdateEP_eps, he, alookup_updEP_self, hk]
      rfl
    · refine ⟨ep, ?_, hp⟩
      rw [reBuildFailedUpdateEP_eps, alookup_updEP_ne he]
      exact hk
  obtain ⟨epm, hm, hmH⟩ := hmid
  rcases evo_needs_cases (evo_updateLambdaCodeState cfg fuel _) k epm ep' hm hk2 with
    hceq | ⟨hoff, _⟩
  · rw [hceq]
    exact Or.inl hmH
  · exact Or.inr hoff

theorem onLintDone_eq (cfg : Config) (fuel : Nat) (s : WatcherState) (sp : String) :
    onLintDone cfg fuel s sp =
      updateLambdaCodeState cfg fuel
        { s with
            srcPathsData :=
              aset sp
                { (alookup sp s.srcPathsData).getD { srcPath := sp } with lintProcess := none }
                s.srcPathsData } := rfl

theorem onTypeCheckDone_eq (cfg : Config) (fuel : Nat) (s : WatcherState) (sp : String) :
    onTypeCheckDone cfg fuel s sp =
      updateLambdaCodeState cfg fuel
        { s with
            srcPathsData :=
              aset sp
                { (alookup sp s.srcPathsData).getD { srcPath := sp } with
                    typeCheckProcess := none }
                s.srcPathsData } := rfl

/-- C5 amended: when a rebuild of a registered entry point succeeds, the
handler updates `inputFiles`, clears `hasError`, clears the build handle
(unless the reconciliation pass immediately dispatches a fresh build, which
also clears the priority to `OFF`), sets the priority to `LOW` exactly when
new input files appeared while it was `OFF`, and wakes the pending requests
if and only if the priority is `OFF` after the reconciliation pass — not
after the record update, as the claim says: a dispatch during the pass can
clear a non-`OFF` priority and the waiters are then woken while the follow-up
build is still in flight. -/
theorem onReBuildSucceeded_spec (cfg : Config) (fuel : Nat) (s : WatcherState)
    (sp hd : String) (fs : List String) (ep : EntryPointData)
    (hk : alookup (buildEntryPointKey sp hd) s.entryPointsData = some ep) :
    ∀ ep', alookup (buildEntryPointKey sp hd)
        (onReBuildSucceeded cfg fuel s sp hd fs).entryPointsData = some ep' →
      ep'.inputFiles = fs ∧
      ep'.hasError = false ∧
      ep'.pendingRequestCallbacks = ep.pendingRequestCallbacks ∧
      ((ep'.buildPromise = none ∧
          ep'.needsReBuild =
            (if ep.needsReBuild == 0 && !((arrayDiff ep.inputFiles fs).add.length == 0)
             then REBUILD_PRIORITY.LOW else ep.needsReBuild)) ∨
        (ep'.needsReBuild = REBUILD_PRIORITY.OFF ∧ ep'.buildPromise.isSome = true)) ∧
      (ep'.needsReBuild = 0 →
        ∀ w ∈ ep'.pendingRequestCallbacks,
          alookup w s.waiters = some WaiterStatus.pending →
          alookup w (onReBuildSucceeded cfg fuel s sp hd fs).waiters =
            some WaiterStatus.resolved) ∧
      (¬ ep'.needsReBuild = 0 →
        (onReBuildSucceeded cfg fuel s sp hd fs).waiters = s.waiters) := by
  intro ep' hk2
  have hmidk : alookup (buildEntryPointKey sp hd)
      (reBuildSucceededMid s (buildEntryPointKey sp hd) sp ep fs).entryPointsData =
      some { ep with
              inputFiles := fs,
              hasError := false,
              buildPromise := none,
              needsReBuild :=
                if ep.needsReBuild == 0 && !((arrayDiff ep.inputFiles fs).add.length == 0)
                then REBUILD_PRIORITY.LOW else ep.needsReBuild } := by
    rw [reBuildSucceededMid_eps, alookup_updEP_self, hk]
    rfl
  have hW : (updateLambdaCodeState cfg fuel
      (reBuildSucceededMid s (buildEntryPointKey sp hd) sp ep fs)).waiters = s.waiters := by
    rw [(evo_updateLambdaCodeState cfg fuel _).waiters]
    exact (reBuildSucceededMid_fields s _ sp ep fs).1
  rcases onReBuildSucceeded_shape cfg fuel s sp hd fs ep hk with
    ⟨ht, hno⟩ | ⟨ep2, hk3, hz, ht⟩
  · rw [ht] at hk2
    have hnz := hno ep' hk2
    have hcase := evo_needs_cases (evo_updateLambdaCodeState cfg fuel _)
      (buildEntryPointKey sp hd) _ ep' hmidk hk2
    rcases hcase with hceq | ⟨hoff, hsome, herr, hin, hpend⟩
    · rw [hceq]
      refine ⟨rfl, rfl, rfl, Or.inl ⟨rfl, rfl⟩, ?_, ?_⟩
      · intro hz0 w hw hws
        rw [← hceq] at hz0
        rw [hz0] at hnz
        exact absurd hnz (by decide)
      · intro hnz0
        rw [ht, hW]
    · refine ⟨hin, herr, hpend, Or.inr ⟨hoff, hsome⟩, ?_, ?_⟩
      · intro hz0 w hw hws
        rw [hz0] at hnz
        exact absurd hnz (by decide)
      · intro hnz0
        rw [ht, hW]
  · rw [ht, resolveAll_entryPointsData, hk3] at hk2
    have he2 : ep' = ep2 := ((Option.some.injEq _ _).mp hk2).symm
    have hcase := evo_needs_cases (evo_updateLambdaCodeState cfg fuel _)
      (buildEntryPointKey sp hd) _ ep2 hmidk hk3
    have hres : ∀ w ∈ ep'.pendingRequestCallbacks,
        alookup w s.waiters = some WaiterStatus.pending →
        alookup w (onReBuildSucceeded cfg fuel s sp hd fs).waiters =
          some WaiterStatus.resolved := by
      intro w hw hws
      rw [ht]
      refine resolveAll_pending_to_resolved _ _ w ?_ ?_
      · rw [← he2]
        exact hw
      · rw [hW]
        exact hws
    have hnres : ¬ ep'.needsReBuild = 0 → (onReBuildSucceeded cfg fuel s sp hd fs).waiters =
        s.waiters := by
      intro hnz0
      rw [he2] at hnz0
      exact absurd (eq_of_beq hz) hnz0
    rcases hcase with hceq | ⟨hoff, hsome, herr, hin, hpend⟩
    · refine ⟨?_, ?_, ?_, ?_, fun _ => hres, hnres⟩
      · rw [he2, hceq]
      · rw [he2, hceq]
      · rw [he2, hceq]
      · rw [he2, hceq]
        exact Or.inl ⟨rfl, rfl⟩
    · refine ⟨?_, ?_, ?_, ?_, fun _ => hres, hnres⟩
      · rw [he2]; exact hin
      · rw [he2]; exact herr
      · rw [he2]; exact hpend
      · rw [he2]; exact Or.inr ⟨hoff, hsome⟩

/-- C4 amended: when a rebuild of a registered entry point fails, the handler
sets `hasError`, clears the build handle (unless the reconciliation pass
immediately dispatches a fresh build, which also clears the priority to
`OFF`), leaves `srcPathsData` — and so every `needsReCheck` flag — untouched,
and rejects the pending requests with the descriptive error if and only if
the priority is `OFF` after the reconciliation pass; with a non-`OFF`
priority the waiters stay queued, contrary to the claim's unconditional
rejection. -/
theorem onReBuildFailed_spec (cfg : Config) (fuel : Nat) (s : WatcherState)
    (sp hd : String) (ep : EntryPointData)
    (hk : alookup (buildEntryPointKey sp hd) s.entryPointsData = some ep) :
    (onReBuildFailed cfg fuel s sp hd).srcPathsData = s.srcPathsData ∧
    ∀ ep', alookup (buildEntryPointKey sp hd)
        (onReBuildFailed cfg fuel s sp hd).entryPointsData = some ep' →
      ep'.hasError = true ∧
      ep'.pendingRequestCallbacks = ep.pendingRequestCallbacks ∧
      (ep'.buildPromise = none ∨
        (ep'.needsReBuild = REBUILD_PRIORITY.OFF ∧ ep'.buildPromise.isSome = true)) ∧
      (ep'.needsReBuild = 0 →
        ∀ w ∈ ep'.pendingRequestCallbacks,
          alookup w s.waiters = some WaiterStatus.pending →
          alookup w (onReBuildFailed cfg fuel s sp hd).waiters =
            some (WaiterStatus.rejected (failRejectMsg sp hd))) ∧
      (¬ ep'.needsReBuild = 0 →
        (onReBuildFailed cfg fuel s sp hd).waiters = s.waiters) := by
  have hmidk : alookup (buildEntryPointKey sp hd)
      (reBuildFailedUpdateEP s (buildEntryPointKey sp hd)).entryPointsData =
      some { ep with hasError := true, buildPromise := none } := by
    rw [reBuildFailedUpdateEP_eps, alookup_updEP_self, hk]
    rfl
  have hW : (updateLambdaCodeState cfg fuel
      (reBuildFailedUpdateEP s (buildEntryPointKey sp hd))).waiters = s.waiters := by
    rw [(evo_updateLambdaCodeState cfg fuel _).waiters]
    exact (reBuildFailedUpdateEP_fields s _).1
  have hsrc : (updateLambdaCodeState cfg fuel
      (reBuildFailedUpdateEP s (buildEntryPointKey sp hd))).srcPathsData = s.srcPathsData := by
    have hany : (reBuildFailedUpdateEP s
        (buildEntryPointKey sp hd)).entryPointsData.any (fun kv => kv.2.hasError) = true := by
      refine List.any_eq_true.mpr
        ⟨(buildEntryPointKey sp hd, { ep with hasError := true, buildPromise := none }), ?_, rfl⟩
      rw [reBuildFailedUpdateEP_eps]
      exact alookup_updEP_mem _ hk
    rw [update_srcPaths_of_hasError cfg fuel _ hany]
    rfl
  rcases onReBuildFailed_shape cfg fuel s sp hd with ⟨ht, hno⟩ | ⟨ep2, hk3, hz, ht⟩
  · refine ⟨by rw [ht]; exact hsrc, ?_⟩
    intro ep' hk2
    rw [ht] at hk2
    have hnz := hno ep' hk2
    have hcase := evo_needs_cases (evo_updateLambdaCodeState cfg fuel _)
      (buildEntryPointKey sp hd) _ ep' hmidk hk2
    rcases hcase with hceq | ⟨hoff, hsome, herr, hin, hpend⟩
    · rw [hceq]
      refine ⟨rfl, rfl, Or.inl rfl, ?_, ?_⟩
      · intro hz0 w hw hws
        rw [← hceq] at hz0
        rw [hz0] at hnz
        exact absurd hnz (by decide)
      · intro hnz0
        rw [ht, hW]
    · refine ⟨herr, hpend, Or.inr ⟨hoff, hsome⟩, ?_, ?_⟩
      · intro hz0 w hw hws
        rw [hz0] at hnz
        exact absurd hnz (by decide)
      · intro hnz0
        rw [ht, hW]
  · refine ⟨?_, ?_⟩
    · rw [ht, (rejectAll_other_fields _ _ _).2.2.2]
      exact hsrc
    intro ep' hk2
    rw [ht, rejectAll_entryPointsData, hk3] at hk2
    have he2 : ep' = ep2 := ((Option.some.injEq _ _).mp hk2).symm
    have hcase := evo_needs_cases (evo_updateLambdaCodeState cfg fuel _)
      (buildEntryPointKey sp hd) _ ep2 hmidk hk3
    have hrej : ∀ w ∈ ep'.pendingRequestCallbacks,
        alookup w s.waiters = some WaiterStatus.pending →
        alookup w (onReBuildFailed cfg fuel s sp hd).waiters =
          some (WaiterStatus.rejected (failRejectMsg sp hd)) := by
      intro w hw hws
      rw [ht]
      refine rejectAll_pending_to_rejected _ _ _ w ?_ ?_
      · rw [← he2]
        exact hw
      · rw [hW]
        exact hws
    have hnrej : ¬ ep'.needsReBuild = 0 → (onReBuildFailed cfg fuel s sp hd).waiters =
        s.waiters := by
      intro hnz0
      rw [he2] at hnz0
      exact absurd (eq_of_beq hz) hnz0
    rcases hcase with hceq | ⟨hoff, hsome, herr, hin, hpend⟩
    · refine ⟨?_, ?_, ?_, fun _ => hrej, hnrej⟩
      · rw [he2, hceq]
      · rw [he2, hceq]
      · rw [he2, hceq]
        exact Or.inl rfl
    · refine ⟨?_, ?_, ?_, fun _ => hrej, hnrej⟩
      · rw [he2]; exact herr
      · rw [he2]; exact hpend
      · rw [he2]; exact Or.inr ⟨hoff, hsome⟩

/-- Every event handler preserves the master invariant. -/
theorem inv_step (cfg : Config) {s t : WatcherState} {e : Ev} (hs : Step cfg s e t)
    (hinv : Inv cfg s) : Inv cfg t := by
  cases hs with
  | fileChange file => exact inv_onFileChange cfg _ s file hinv
  | request sp hd hk => exact inv_getTranspiledHandler cfg s sp hd hinv
  | reBuildSucceeded sp hd fs hb => exact inv_onReBuildSucceeded cfg _ s sp hd fs hinv
  | reBuildFailed sp hd hb => exact inv_onReBuildFailed cfg _ s sp hd hinv
  | lintDone sp h2 => exact inv_onLintDone cfg _ s sp hinv
  | typeCheckDone sp h2 => exact inv_onTypeCheckDone cfg _ s sp hinv

/-- The master invariant holds in every reachable state. -/
theorem reachable_inv (cfg : Config) {s : WatcherState} (h : Reachable cfg s) :
    Inv cfg s := by
  induction h with
  | init s h => exact inv_start cfg s true h
  | step a hstep ih => exact inv_step cfg hstep ih

/-! The per-claim theorems. -/

/-- C1: for a registered entry point, `getTranspiledHandler` returns
immediately with the current artifact when the entry point is clean (no build
in flight and priority `OFF`); otherwise it raises the priority to `HIGH`,
appends a fresh pending waiter to the entry point's
`pendingRequestCallbacks` FIFO and to the promise registry, and the caller
suspends on that waiter; a pending waiter can then only be settled by a
build-outcome event (`onReBuildSucceeded` / `onReBuildFailed`). -/
theorem getTranspiledHandler_request_coordinator (cfg : Config) (s : WatcherState)
    (sp hd : String) (ep : EntryPointData)
    (hk : alookup (buildEntryPointKey sp hd) s.entryPointsData = some ep) :
    (ep.buildPromise = none ∧ ep.needsReBuild = 0 →
      getTranspiledHandler s sp hd =
        (GetResult.immediate ep.runtime ep.outEntryPoint, s)) ∧
    (¬ (ep.buildPromise = none ∧ ep.needsReBuild = 0) →
      (getTranspiledHandler s sp hd).1 = GetResult.suspended s.nextWaiterId ∧
      alookup (buildEntryPointKey sp hd)
          (getTranspiledHandler s sp hd).2.entryPointsData =
        some { ep with
                 needsReBuild := REBUILD_PRIORITY.HIGH,
                 pendingRequestCallbacks :=
                   ep.pendingRequestCallbacks ++ [s.nextWaiterId] } ∧
      (getTranspiledHandler s sp hd).2.waiters =
        s.waiters ++ [(s.nextWaiterId, WaiterStatus.pending)]) ∧
    (∀ (u t : WatcherState) (e : Ev) (w : Nat), Step cfg u e t →
      (∀ sp2 hd2 fs, e ≠ Ev.reBuildSucceeded sp2 hd2 fs) →
      (∀ sp2 hd2, e ≠ Ev.reBuildFailed sp2 hd2) →
      alookup w u.waiters = some WaiterStatus.pending →
      alookup w t.waiters = some WaiterStatus.pending) := by
  refine ⟨?_, ?_, fun u t e w hstep h1 h2 hp =>
    step_waiter_pending_preserved cfg w hstep h1 h2 hp⟩
  · rintro ⟨hbp, hnz⟩
    have hcond : (ep.buildPromise.isSome || !(ep.needsReBuild == 0)) = false := by
      rw [hbp, hnz]
      rfl
    simp only [getTranspiledHandler, hk, hcond, Bool.false_eq_true, if_false]
  · intro h
    have hcond : (ep.buildPromise.isSome || !(ep.needsReBuild == 0)) = true := by
      rcases Decidable.em (ep.buildPromise = none) with hbp | hbp
      · have hnz : ¬ ep.needsReBuild = 0 := fun hz => h ⟨hbp, hz⟩
        rw [hbp]
        simp [hnz]
      · cases hx : ep.buildPromise with
        | none => exact absurd hx hbp
        | some b => rfl
    refine ⟨?_, ?_, ?_⟩
    · simp only [getTranspiledHandler, hk, hcond, if_true]
    · simp only [getTranspiledHandler, hk, hcond, if_true]
      unfold requestEnqueue
      dsimp only
      rw [alookup_updEP_self, hk]
      rfl
    · simp only [getTranspiledHandler, hk, hcond, if_true]
      rfl

/-- C2 amended: in every reachable state, every waiter queued on a clean
entry point (no build in flight, priority `OFF`) has been settled — the
promise is no longer pending.  The `pendingRequestCallbacks` list itself is
never emptied, so the claim's "the list is empty again" (and with it the
stated non-emptiness invariant) does not hold. -/
theorem pending_waiters_settled_when_clean (cfg : Config) (s : WatcherState)
    (h : Reachable cfg s) (key : String) (ep : EntryPointData)
    (hk : alookup key s.entryPointsData = some ep)
    (hbp : ep.buildPromise = none) (hnz : ep.needsReBuild = 0) :
    ∀ w ∈ ep.pendingRequestCallbacks,
      ¬ alookup w s.waiters = some WaiterStatus.pending :=
  (reachable_inv cfg h).2.2.2.1 key ep hk hbp hnz

/-- C3 amended: no event other than a file change lowers a `HIGH` priority to
`LOW`: across any non-file-change event, an entry point whose priority was
`HIGH` ends with priority `HIGH` or `OFF` (the latter when the reconciliation
pass dispatches its build).  A file-change event, by contrast, overwrites the
priority of every matched entry point with `LOW` unconditionally. -/
theorem high_priority_not_lowered_except_fileChange (cfg : Config)
    {u t : WatcherState} {e : Ev} (k : String) (ep ep' : EntryPointData)
    (hstep : Step cfg u e t) (hne : ∀ f, e ≠ Ev.fileChange f)
    (hk : alookup k u.entryPointsData = some ep)
    (hp : ep.needsReBuild = REBUILD_PRIORITY.HIGH)
    (hk2 : alookup k t.entryPointsData = some ep') :
    ep'.needsReBuild = REBUILD_PRIORITY.HIGH ∨
    ep'.needsReBuild = REBUILD_PRIORITY.OFF := by
  cases hstep with
  | fileChange file => exact absurd rfl (hne file)
  | request sp hd hsome =>
    rcases getTranspiledHandler_needs_cases u sp hd k ep ep' hk hk2 with hceq | hH
    · rw [hceq]
      exact Or.inl hp
    · exact Or.inl hH
  | reBuildSucceeded sp hd fs hb =>
    exact onReBuildSucceeded_needs_cases cfg _ u sp hd fs k ep ep' hk hp hk2
  | reBuildFailed sp hd hb =>
    exact onReBuildFailed_needs_cases cfg _ u sp hd k ep ep' hk hp hk2
  | lintDone sp hsp =>
    rw [onLintDone_eq] at hk2
    have hkv : alookup k
        ({ u with
            srcPathsData :=
              aset sp
                { (alookup sp u.srcPathsData).getD { srcPath := sp } with lintProcess := none }
                u.srcPathsData } : WatcherState).entryPointsData = some ep := hk
    rcases evo_needs_cases (evo_updateLambdaCodeState cfg (defaultFuel u) _) k ep ep' hkv hk2
      with hceq | ⟨hoff, _⟩
    · rw [hceq]
      exact Or.inl hp
    · exact Or.inr hoff
  | typeCheckDone sp hsp =>
    rw [onTypeCheckDone_eq] at hk2
    have hkv : alookup k
        ({ u with
            srcPathsData :=
              aset sp
                { (alookup sp u.srcPathsData).getD { srcPath := sp } with
                    typeCheckProcess := none }
                u.srcPathsData } : WatcherState).entryPointsData = some ep := hk
    rcases evo_needs_cases (evo_updateLambdaCodeState cfg (defaultFuel u) _) k ep ep' hkv hk2
      with hceq | ⟨hoff, _⟩
    · rw [hceq]
      exact Or.inl hp
    · exact Or.inr hoff

/-- C6: in every reachable state at most `builderConcurrency` go builds are
in flight; the go rebuild queue gathered by a reconciliation pass is a block
of `HIGH`-priority keys followed by a block of `LOW`-priority keys (HIGH
items are placed at the front, LOW items appended at the back); and an entry
point whose build is in flight is never touched by a reconciliation pass —
its record, build handle included, is exactly preserved. -/
theorem go_concurrency_and_priority_queue (cfg : Config) :
    (∀ s : WatcherState, Reachable cfg s →
      goBuildingCount s ≤ cfg.builderConcurrency) ∧
    (∀ eps : List (String × EntryPointData), GoQueueOk eps (gatherBuildData eps).2.1) ∧
    (∀ (fuel : Nat) (u : WatcherState) (k : String) (ep : EntryPointData),
      (u.entryPointsData.map Prod.fst).Nodup →
      alookup k u.entryPointsData = some ep → ep.buildPromise.isSome = true →
      alookup k (updateLambdaCodeState cfg fuel u).entryPointsData = some ep) :=
  ⟨fun _ h => (reachable_inv cfg h).2.1,
   fun eps => (gatherBuildData_spec eps).1,
   fun fuel u k ep hnd hk hb => running_preserved_update cfg fuel u k ep hnd hk hb⟩

/-- C7: in every reachable state the busy-message log is a strict
alternation: starting NOT-BUSY, exactly one "Rebuilding code..." per
NOT-BUSY-to-BUSY edge and exactly one terminal message ("Done building code"
or "Rebuilding code failed") per BUSY-to-NOT-BUSY edge, nothing in between,
and the replayed busy bit matches the state's busy bit. -/
theorem busy_message_stream_alternates (cfg : Config) (s : WatcherState)
    (h : Reachable cfg s) :
    chkMsgs s.msgs = some s.isProcessingLambdaChanges :=
  (reachable_inv cfg h).2.2.1

/-- Witness for C1: on the started state `t0` the entry point is clean and
`getTranspiledHandler` returns the artifact immediately, leaving the state
untouched. -/
theorem getTranspiledHandler_request_coordinator_witness :
    getTranspiledHandler t0 "s" "src/h.handler" =
      (GetResult.immediate epT0.runtime epT0.outEntryPoint, t0) :=
  (getTranspiledHandler_request_coordinator cfg1 t0 "s" "src/h.handler" epT0
      (by decide)).1 ⟨rfl, rfl⟩

/-- Witness for C2 amended: in the reachable clean state `t4` the queued
waiter 0 is no longer pending. -/
theorem pending_waiters_settled_when_clean_witness :
    ¬ alookup 0 t4.waiters = some WaiterStatus.pending :=
  pending_waiters_settled_when_clean cfg1 t4 reachable_t4 key1
    { epT0 with pendingRequestCallbacks := [0] } (by decide) rfl rfl 0 (by decide)

/-- Witness for C3 amended: a lint-exit event at `t2` leaves the `HIGH`
priority at `HIGH` (the build is in flight, so the pass cannot dispatch). -/
theorem high_priority_not_lowered_except_fileChange_witness :
    epT2.needsReBuild = REBUILD_PRIORITY.HIGH ∨
    epT2.needsReBuild = REBUILD_PRIORITY.OFF :=
  high_priority_not_lowered_except_fileChange cfg1 key1 epT2 epT2
    (Step.lintDone t2 "s" (by decide)) (fun f h => Ev.noConfusion h)
    (by decide) rfl (by decide)

/-- Witness for C4 amended: the failure of the second go build in `g4` leaves
`srcPathsData` untouched and, because the priority is `LOW` after the pass,
does not touch the waiters. -/
theorem onReBuildFailed_spec_witness :
    (onReBuildFailed cfg2 (defaultFuel g4) g4 "s2" "src/b.go").srcPathsData =
      g4.srcPathsData ∧
    (onReBuildFailed cfg2 (defaultFuel g4) g4 "s2" "src/b.go").waiters = g4.waiters :=
  ⟨(onReBuildFailed_spec cfg2 (defaultFuel g4) g4 "s2" "src/b.go" epG4 (by decide)).1,
   ((onReBuildFailed_spec cfg2 (defaultFuel g4) g4 "s2" "src/b.go" epG4 (by decide)).2
      epG5 (by decide)).2.2.2.2 (by decide)⟩

/-- Witness for C5 amended: the successful rebuild at `t2` ends with priority
`OFF` (the pass redispatches), so waiter 0 is resolved. -/
theorem onReBuildSucceeded_spec_witness :
    alookup 0 (onReBuildSucceeded cfg1 (defaultFuel t2) t2 "s" "src/h.handler"
      ["/a/f.ts"]).waiters = some WaiterStatus.resolved :=
  (onReBuildSucceeded_spec cfg1 (defaultFuel t2) t2 "s" "src/h.handler" ["/a/f.ts"]
      epT2 (by decide) epT3 (by decide)).2.2.2.2.1 (by decide) 0 (by decide) (by decide)

/-- Witness for C6: the reachable state `g1` has at most
`builderConcurrency` go builds in flight. -/
theorem go_concurrency_and_priority_queue_witness :
    goBuildingCount g1 ≤ cfg2.builderConcurrency :=
  (go_concurrency_and_priority_queue cfg2).1 g1 reachable_g1

/-- Witness for C7: the message log of the reachable state `t4` replays to
its busy bit. -/
theorem busy_message_stream_alternates_witness :
    chkMsgs t4.msgs = some t4.isProcessingLambdaChanges :=
  busy_message_stream_alternates cfg1 t4 reachable_t4

end Watcher
